import Mathlib

/-!
Shallow embedding of the `trace2receiver` Go package, with theorems checking
the natural-language specification against the code.

Conventions used throughout:
* Go byte slices are `List Nat` (each element < 256 by construction).
* Go `time.Time` is `Int`; the Go zero time is `0` (Go's `Time.IsZero`).
* Go maps are either Lean functions `K → Option V` (when the source only ever
  looks keys up) or association lists (when the source iterates over them).
* Go `interface{}` values inside heterogeneous arrays are `GoVal`; the Go type
  assertion `x.(string)` is modelled by `goValAsString`, which yields `none`
  exactly when Go would panic.
* Functions that can panic in Go return `Option` (`none` = panic); event
  handlers return `ApplyOutcome` with an explicit `panic` constructor.
-/

/-! ### SHA-256 (reference implementation of Go `crypto/sha256.Sum256`)

The Go code calls the standard library's SHA-256.  We embed the FIPS 180-4
algorithm over `Nat` with explicit `% 2^32` reductions.  No claim depends on
properties of the hash beyond it being a function, but the synthesized ids in
`extractIDsfromSID` are byte ranges of this digest, so we implement it fully
and executably. -/

def u32mask : Nat := 4294967295

def add32 (a b : Nat) : Nat := (a + b) % 4294967296

def rotr32 (n x : Nat) : Nat := ((x >>> n) ||| (x <<< (32 - n))) &&& u32mask

def not32 (x : Nat) : Nat := x ^^^ u32mask

def sha256K : List Nat :=
  [1116352408, 1899447441, 3049323471, 3921009573, 961987163, 1508970993,
   2453635748, 2870763221, 3624381080, 310598401, 607225278, 1426881987,
   1925078388, 2162078206, 2614888103, 3248222580, 3835390401, 4022224774,
   264347078, 604807628, 770255983, 1249150122, 1555081692, 1996064986,
   2554220882, 2821834349, 2952996808, 3210313671, 3336571891, 3584528711,
   113926993, 338241895, 666307205, 773529912, 1294757372, 1396182291,
   1695183700, 1986661051, 2177026350, 2456956037, 2730485921, 2820302411,
   3259730800, 3345764771, 3516065817, 3600352804, 4094571909, 275423344,
   430227734, 506948616, 659060556, 883997877, 958139571, 1322822218,
   1537002063, 1747873779, 1955562222, 2024104815, 2227730452, 2361852424,
   2428436474, 2756734187, 3204031479, 3329325298]

def sha256H0 : List Nat :=
  [1779033703, 3144134277, 1013904242, 2773480762,
   1359893119, 2600822924, 528734635, 1541459225]

/-- SHA-256 message padding: append `0x80`, zeros, and the 64-bit big-endian
bit length so the total is a multiple of 64 bytes. -/
def sha256Pad (msg : List Nat) : List Nat :=
  let len := msg.length
  let bitLen := 8 * len
  let zeros := (119 - len % 64) % 64
  msg ++ [0x80] ++ List.replicate zeros 0 ++
    [(bitLen >>> 56) &&& 255, (bitLen >>> 48) &&& 255, (bitLen >>> 40) &&& 255,
     (bitLen >>> 32) &&& 255, (bitLen >>> 24) &&& 255, (bitLen >>> 16) &&& 255,
     (bitLen >>> 8) &&& 255, bitLen &&& 255]

/-- Group bytes into big-endian 32-bit words. -/
def bytesToWords : List Nat → List Nat
  | b0 :: b1 :: b2 :: b3 :: rest =>
      ((b0 <<< 24) ||| (b1 <<< 16) ||| (b2 <<< 8) ||| b3) :: bytesToWords rest
  | _ => []

/-- Group words into 16-word blocks. -/
def wordsToBlocks : List Nat → List (List Nat)
  | w0 :: w1 :: w2 :: w3 :: w4 :: w5 :: w6 :: w7 ::
    w8 :: w9 :: w10 :: w11 :: w12 :: w13 :: w14 :: w15 :: rest =>
      [w0, w1, w2, w3, w4, w5, w6, w7, w8, w9, w10, w11, w12, w13, w14, w15] ::
        wordsToBlocks rest
  | _ => []

/-- Extend a 16-word block to the 64-word message schedule (`n` words to add). -/
def sha256Extend : Nat → List Nat → List Nat
  | 0, ws => ws
  | n + 1, ws =>
      let i := ws.length
      let w15 := ws.getD (i - 15) 0
      let w2 := ws.getD (i - 2) 0
      let s0 := (rotr32 7 w15) ^^^ (rotr32 18 w15) ^^^ (w15 >>> 3)
      let s1 := (rotr32 17 w2) ^^^ (rotr32 19 w2) ^^^ (w2 >>> 10)
      let w := add32 (add32 (ws.getD (i - 16) 0) s0) (add32 (ws.getD (i - 7) 0) s1)
      sha256Extend n (ws ++ [w])

structure Sha256St where
  a : Nat
  b : Nat
  c : Nat
  d : Nat
  e : Nat
  f : Nat
  g : Nat
  h : Nat

/-- One compression round with schedule word `w` and round constant `k`. -/
def sha256Round (st : Sha256St) (wk : Nat × Nat) : Sha256St :=
  let s1 := (rotr32 6 st.e) ^^^ (rotr32 11 st.e) ^^^ (rotr32 25 st.e)
  let ch := (st.e &&& st.f) ^^^ ((not32 st.e) &&& st.g)
  let temp1 := add32 (add32 st.h s1) (add32 ch (add32 wk.2 wk.1))
  let s0 := (rotr32 2 st.a) ^^^ (rotr32 13 st.a) ^^^ (rotr32 22 st.a)
  let maj := (st.a &&& st.b) ^^^ (st.a &&& st.c) ^^^ (st.b &&& st.c)
  let temp2 := add32 s0 maj
  { a := add32 temp1 temp2, b := st.a, c := st.b, d := st.c,
    e := add32 st.d temp1, f := st.e, g := st.f, h := st.g }

/-- Compress one 16-word block into the running 8-word hash value. -/
def sha256Block (hv : List Nat) (block : List Nat) : List Nat :=
  let ws := sha256Extend 48 block
  let st0 : Sha256St :=
    { a := hv.getD 0 0, b := hv.getD 1 0, c := hv.getD 2 0, d := hv.getD 3 0,
      e := hv.getD 4 0, f := hv.getD 5 0, g := hv.getD 6 0, h := hv.getD 7 0 }
  let st := (ws.zip sha256K).foldl sha256Round st0
  [add32 (hv.getD 0 0) st.a, add32 (hv.getD 1 0) st.b,
   add32 (hv.getD 2 0) st.c, add32 (hv.getD 3 0) st.d,
   add32 (hv.getD 4 0) st.e, add32 (hv.getD 5 0) st.f,
   add32 (hv.getD 6 0) st.g, add32 (hv.getD 7 0) st.h]

def wordBytesBE (w : Nat) : List Nat :=
  [(w >>> 24) &&& 255, (w >>> 16) &&& 255, (w >>> 8) &&& 255, w &&& 255]

/-- SHA-256 digest of a byte string: 32 bytes. -/
def sha256Bytes (msg : List Nat) : List Nat :=
  let blocks := wordsToBlocks (bytesToWords (sha256Pad msg))
  ((blocks.foldl sha256Block sha256H0).map wordBytesBE).flatten

/-! ### Strings, UTF-8 bytes and Go `strings.Split` -/

/-- UTF-8 encoding of one character (standard 1-4 byte encoding). -/
def utf8EncodeChar (c : Char) : List Nat :=
  let n := c.toNat
  if n < 128 then [n]
  else if n < 2048 then [192 + n / 64, 128 + n % 64]
  else if n < 65536 then [224 + n / 4096, 128 + (n / 64) % 64, 128 + n % 64]
  else [240 + n / 262144, 128 + (n / 4096) % 64, 128 + (n / 64) % 64, 128 + n % 64]

/-- The UTF-8 bytes of a string (Go's `[]byte(s)`). -/
def strBytes (s : String) : List Nat := (s.data.map utf8EncodeChar).flatten

/-- Split a character list on a separator character.  This is Go's
`strings.Split` for a single-character separator: it always returns at least
one (possibly empty) group. -/
def splitChar (sep : Char) : List Char → List (List Char)
  | [] => [[]]
  | c :: cs =>
    match splitChar sep cs with
    | [] => [[]]
    | grp :: rest => if c = sep then [] :: grp :: rest else (c :: grp) :: rest

/-- Go `strings.Split(s, "/")` (single-character separator). -/
def stringsSplit (s : String) (sep : Char) : List String :=
  (splitChar sep s.data).map (fun cs => String.mk cs)

/-! ### SID → ID synthesizer (`trace2sids.go`) -/

def zeroSpanID : List Nat := List.replicate 8 0

structure SidIDs where
  tid : List Nat
  spid : List Nat
  spidParent : List Nat
deriving DecidableEq

/-- Embedding of `extractIDsfromSID` (`trace2sids.go`).  `sidArray[0]` is
written `headD ""`; `splitChar` never returns an empty list, so the default is
never used. -/
def extractIDsfromSID (rawSid : String) : SidIDs :=
  let sidArray := stringsSplit rawSid '/'
  let hash_0 := sha256Bytes (strBytes (sidArray.headD ""))
  let tid := hash_0.take 16
  if sidArray.length = 1 then
    { tid := tid, spid := (hash_0.drop 16).take 8, spidParent := zeroSpanID }
  else
    let n := sidArray.length - 1
    let hash_n1 := sha256Bytes (strBytes (sidArray.getD (n - 1) ""))
    let hash_n := sha256Bytes (strBytes (sidArray.getD n ""))
    { tid := tid
      spid := (hash_n.drop 16).take 8
      spidParent := (hash_n1.drop 16).take 8 }

/-! ### Detail levels (`fsdetaillevel.go` / `rcvr_base.go`)

`getDetailLevel` maps the four detail-level names to levels and fails on
anything else; the Go error / bool variants are both modelled with `Option`. -/

inductive FSDetailLevel where
  | unset
  | drop
  | summary
  | process
  | verbose
deriving DecidableEq

def FSDetailLevelDropName : String := "dl:drop"
def FSDetailLevelSummaryName : String := "dl:summary"
def FSDetailLevelProcessName : String := "dl:process"
def FSDetailLevelVerboseName : String := "dl:verbose"
def FSDetailLevelDefaultName : String := FSDetailLevelSummaryName

/-- Embedding of `getDetailLevel`: `some dl` on the four detail-level names,
`none` (the Go error) otherwise. -/
def getDetailLevel (rs : String) : Option FSDetailLevel :=
  if rs = FSDetailLevelDropName then some .drop
  else if rs = FSDetailLevelSummaryName then some .summary
  else if rs = FSDetailLevelProcessName then some .process
  else if rs = FSDetailLevelVerboseName then some .verbose
  else none

/-! ### Filter settings (`filter_settings.go`, `ruleset_definition.go`) -/

structure FSKeyNames where
  nicknameKey : String
  rulesetKey : String

structure FSDefaults where
  rulesetName : String

structure RSDefaults where
  detailLevelName : String

/-- A custom ruleset: the `commands` map plus defaults. -/
structure RSDefinition where
  cmdMap : String → Option String
  defaults : RSDefaults

structure FilterSettings where
  namespaceKeys : FSKeyNames
  nicknameMap : String → Option String
  defaults : FSDefaults
  rulesetDefs : String → Option RSDefinition

structure QualifiedNames where
  qualifiedExeBaseName : String
  qualifiedExeVerbName : String
  qualifiedExeVerbModeName : String

/-! ### Filter decision engine (`trace2ruleset.go`) -/

/-- Embedding of `debugDescribe`. -/
def debugDescribe (base lval rval : String) : String :=
  if base.length = 0 then "[" ++ lval ++ " -> " ++ rval ++ "]"
  else base ++ "/[" ++ lval ++ " -> " ++ rval ++ "]"

/-- `FilterSettings.lookupRulesetNameByRulesetKey`. -/
def lookupRulesetNameByRulesetKey (fs : FilterSettings) (params : String → Option String)
    (debug_in : String) : String × Bool × String :=
  let rskey := fs.namespaceKeys.rulesetKey
  if rskey.length = 0 then ("", false, debug_in)
  else
    match params rskey with
    | none => ("", false, debug_in)
    | some v =>
      if v.length = 0 then ("", false, debug_in)
      else (v, true, debugDescribe debug_in "rskey" v)

/-- `FilterSettings.lookupRulesetNameByNickname`. -/
def lookupRulesetNameByNickname (fs : FilterSettings) (params : String → Option String)
    (debug_in : String) : String × Bool × String :=
  let nnkey := fs.namespaceKeys.nicknameKey
  if nnkey.length = 0 then ("", false, debug_in)
  else
    match params nnkey with
    | none => ("", false, debug_in)
    | some nnvalue =>
      if nnvalue.length = 0 then ("", false, debug_in)
      else
        let debug_out := debugDescribe debug_in "nickname" nnvalue
        match fs.nicknameMap nnvalue with
        | none => ("", false, debugDescribe debug_out nnvalue "UNKNOWN")
        | some rs_dl_name =>
          if rs_dl_name.length = 0 then ("", false, debugDescribe debug_out nnvalue "UNKNOWN")
          else (rs_dl_name, true, debugDescribe debug_out nnvalue rs_dl_name)

/-- `FilterSettings.lookupDefaultRulesetName`. -/
def lookupDefaultRulesetName (fs : FilterSettings) (debug_in : String) :
    String × Bool × String :=
  if fs.defaults.rulesetName.length = 0 then ("", false, debug_in)
  else (fs.defaults.rulesetName, true,
        debugDescribe debug_in "default-ruleset" fs.defaults.rulesetName)

/-- `FilterSettings.lookupRulesetName`: ruleset key, then nickname, then
global default. -/
def lookupRulesetName (fs : FilterSettings) (params : String → Option String)
    (debug_in : String) : String × Bool × String :=
  let r1 := lookupRulesetNameByRulesetKey fs params debug_in
  if r1.2.1 then r1
  else
    let r2 := lookupRulesetNameByNickname fs params r1.2.2
    if r2.2.1 then r2
    else lookupDefaultRulesetName fs r2.2.2

/-- `useBuiltinDefaultDetailLevel`. -/
def useBuiltinDefaultDetailLevel (debug_in : String) : FSDetailLevel × String :=
  ((getDetailLevel FSDetailLevelDefaultName).getD .unset,
   debugDescribe debug_in "builtin-default" FSDetailLevelDefaultName)

/-- `RSDefinition.useRulesetDefaultDetailLevel`. -/
def useRulesetDefaultDetailLevel (rsdef : RSDefinition) (debug_in : String) :
    FSDetailLevel × String :=
  ((getDetailLevel rsdef.defaults.detailLevelName).getD .unset,
   debugDescribe debug_in "ruleset-default" rsdef.defaults.detailLevelName)

/-- `RSDefinition.lookupCommandDetailLevelName`: try
`exe:verb#mode`, `exe:verb`, `exe`, in that order. -/
def lookupCommandDetailLevelName (rsdef : RSDefinition) (qn : QualifiedNames)
    (debug_in : String) : String × Bool × String :=
  match rsdef.cmdMap qn.qualifiedExeVerbModeName with
  | some dl_name => (dl_name, true, debugDescribe debug_in qn.qualifiedExeVerbModeName dl_name)
  | none =>
    match rsdef.cmdMap qn.qualifiedExeVerbName with
    | some dl_name => (dl_name, true, debugDescribe debug_in qn.qualifiedExeVerbName dl_name)
    | none =>
      match rsdef.cmdMap qn.qualifiedExeBaseName with
      | some dl_name => (dl_name, true, debugDescribe debug_in qn.qualifiedExeBaseName dl_name)
      | none => ("", false, debug_in)

/-- Embedding of `computeDetailLevel` (`trace2ruleset.go`).  `fs = none`
models the nil `*FilterSettings`. -/
def computeDetailLevel (fs : Option FilterSettings) (params : String → Option String)
    (qn : QualifiedNames) : FSDetailLevel × String :=
  match fs with
  | none => useBuiltinDefaultDetailLevel ""
  | some fs =>
    let r := lookupRulesetName fs params ""
    let rs_dl_name := r.1
    let debug := r.2.2
    if !r.2.1 then useBuiltinDefaultDetailLevel debug
    else
      match getDetailLevel rs_dl_name with
      | some dl => (dl, debug)
      | none =>
        match fs.rulesetDefs rs_dl_name with
        | none =>
          useBuiltinDefaultDetailLevel (debugDescribe debug rs_dl_name "INVALID")
        | some rsdef =>
          let debug := debugDescribe debug "command" qn.qualifiedExeVerbModeName
          let rc := lookupCommandDetailLevelName rsdef qn debug
          if !rc.2.1 then useRulesetDefaultDetailLevel rsdef rc.2.2
          else
            match getDetailLevel rc.1 with
            | some dl => (dl, rc.2.2)
            | none =>
              ((getDetailLevel FSDetailLevelDefaultName).getD .unset,
               debugDescribe rc.2.2 "BACKSTOP" FSDetailLevelDefaultName)

/-! ### Heterogeneous JSON array values

`[]interface{}` elements from the JSON decoder.  Only string elements are ever
extracted (via Go type assertions); all other decoded values are collapsed
into `vOther` since no handler inspects them. -/

inductive GoVal where
  | vStr (s : String)
  | vInt (n : Int)
  | vOther
deriving DecidableEq

/-- Go type assertion `x.(string)`: `none` models the runtime panic on a
non-string value. -/
def goValAsString : GoVal → Option String
  | .vStr s => some s
  | _ => none

/-! ### Map helpers

Go maps that are only read by key are Lean functions `K → Option V`; Go maps
that the source iterates over (`threads`, `children`, `exec`) are association
lists (Go's iteration order is unspecified; the model iterates in insertion
order). -/

def mapUpd {α β : Type} [DecidableEq α] (m : α → Option β) (k : α) (v : β) :
    α → Option β :=
  fun x => if x = k then some v else m x

def alGet {β : Type} (l : List (String × β)) (k : String) : Option β :=
  (l.find? (fun p => p.1 == k)).map Prod.snd

def alGetInt {β : Type} (l : List (Int × β)) (k : Int) : Option β :=
  (l.find? (fun p => p.1 == k)).map Prod.snd

def alModifyInt {β : Type} (l : List (Int × β)) (k : Int) (f : β → β) :
    List (Int × β) :=
  l.map (fun p => if p.1 == k then (p.1, f p.2) else p)

/-! ### Dataset data model (`trace2dataset.go`)

Timer and counter tables (`float64`-valued stopwatch timers) are omitted: no
claim concerns them and their float fields have no exact embedding. -/

/-- `TrSpanEssentials`: `endTime = 0` is Go's zero `time.Time` (span open). -/
structure TrSpanEssentials where
  selfSpanID : List Nat
  parentSpanID : List Nat
  startTime : Int
  endTime : Int
  displayName : String
deriving DecidableEq

structure TrRegion where
  lifetime : TrSpanEssentials
  repoId : Int
  nestingLevel : Int
  message : String
  category : String
  label : String
  dataValues : String → String → Option GoVal

structure TrThread where
  lifetime : TrSpanEssentials
  regionStack : List TrRegion

structure TrChild where
  lifetime : TrSpanEssentials
  argv : List GoVal
  pid : Int
  exitcode : Int
  readystate : String
  class_ : String
  hookname : String

structure TrExec where
  lifetime : TrSpanEssentials
  argv : List GoVal
  exe : String
  exitcode : Int

structure TrProcess where
  mainThread : TrThread
  exeVersion : String
  evtVersion : String
  cmdArgv : List GoVal
  cmdVerb : String
  cmdHierarchy : String
  cmdMode : String
  cmdAliasKey : String
  cmdAliasValue : List GoVal
  cmdAncestry : List GoVal
  exeExitCode : Int
  exeErrorMsg : String
  exeErrorFmt : String
  repoSet : Int → Option String
  paramSetValues : String → Option String
  paramSetPriorities : String → Option Int
  dataValues : String → String → Option GoVal
  qualifiedNames : QualifiedNames

structure Trace2Dataset where
  datasetId : Nat
  sawData : Bool
  rngState : Nat
  otelTraceID : List Nat
  trace2SID : String
  process : TrProcess
  threads : List (String × TrThread)
  children : List (Int × TrChild)
  exec : List (Int × TrExec)
  completedRegions : List TrRegion

/-- 8 bytes (little-endian) of a natural number. -/
def natLE8 (n : Nat) : List Nat :=
  [n &&& 255, (n >>> 8) &&& 255, (n >>> 16) &&& 255, (n >>> 24) &&& 255,
   (n >>> 32) &&& 255, (n >>> 40) &&& 255, (n >>> 48) &&& 255, (n >>> 56) &&& 255]

/-- `trace2Dataset.NewSpanID`: draws 8 bytes from the dataset RNG.  The RNG is
modelled as a counter yielding the successive ids `natLE8 1, natLE8 2, …`; the
actual values are random in Go and no claim depends on them.  Returns the id
and the advanced RNG state. -/
def newSpanID (rng : Nat) : List Nat × Nat := (natLE8 (rng + 1), rng + 1)

def emptySpanEssentials : TrSpanEssentials :=
  { selfSpanID := zeroSpanID, parentSpanID := zeroSpanID,
    startTime := 0, endTime := 0, displayName := "" }

def emptyThread : TrThread := { lifetime := emptySpanEssentials, regionStack := [] }

def emptyQualifiedNames : QualifiedNames :=
  { qualifiedExeBaseName := "", qualifiedExeVerbName := "", qualifiedExeVerbModeName := "" }

/-- `NewTrace2Dataset`: the fresh (zero-valued) dataset for a new connection. -/
def newTrace2Dataset (dsid : Nat) : Trace2Dataset :=
  { datasetId := dsid, sawData := false, rngState := 0,
    otelTraceID := List.replicate 16 0, trace2SID := "",
    process :=
      { mainThread := emptyThread, exeVersion := "", evtVersion := "",
        cmdArgv := [], cmdVerb := "", cmdHierarchy := "", cmdMode := "",
        cmdAliasKey := "", cmdAliasValue := [], cmdAncestry := [],
        exeExitCode := 0, exeErrorMsg := "", exeErrorFmt := "",
        repoSet := fun _ => none, paramSetValues := fun _ => none,
        paramSetPriorities := fun _ => none, dataValues := fun _ _ => none,
        qualifiedNames := emptyQualifiedNames },
    threads := [], children := [], exec := [], completedRegions := [] }

/-- `TrSpanEssentials.isIncomplete`: the end time is still the zero time. -/
def isIncomplete (se : TrSpanEssentials) : Bool := se.endTime == 0

def setRegionEnd (t : Int) (r : TrRegion) : TrRegion :=
  { r with lifetime := { r.lifetime with endTime := t } }

/-- The loop body of `popAllRegionStack`: Go repeatedly pops the top (the
last slice element) and appends it, closed at `t`, to `completedRegions`;
this helper consumes the already-reversed stack. -/
def popAllRev : List TrRegion → List TrRegion → Int → List TrRegion
  | [], completed, _ => completed
  | r :: rest, completed, t => popAllRev rest (completed ++ [setRegionEnd t r]) t

/-- `trace2Dataset.popAllRegionStack` restricted to one thread: returns the
emptied thread and the extended completed-regions list. -/
def popAllRegionStackTh (th : TrThread) (completed : List TrRegion) (t : Int) :
    TrThread × List TrRegion :=
  ({ th with regionStack := [] }, popAllRev th.regionStack.reverse completed t)

/-- `trace2Dataset.lookupThread`: the literal name "main" resolves to the
embedded main thread, everything else through the `threads` map. -/
def lookupThread (tr2 : Trace2Dataset) (threadName : String) : Option TrThread :=
  if threadName = "main" then some tr2.process.mainThread
  else alGet tr2.threads threadName

/-- Write a thread back to where `lookupThread` found it. -/
def storeThread (tr2 : Trace2Dataset) (threadName : String) (th : TrThread) :
    Trace2Dataset :=
  if threadName = "main" then { tr2 with process := { tr2.process with mainThread := th } }
  else
    let threads' := tr2.threads.map (fun p => if p.1 == threadName then (p.1, th) else p)
    { tr2 with threads := threads' }

/-- `TrThread.lookupTopParentSpanID`: top-of-stack region's span id, or the
thread's own span id when the stack is empty. -/
def lookupTopParentSpanID (th : TrThread) : List Nat :=
  match th.regionStack.getLast? with
  | none => th.lifetime.selfSpanID
  | some r => r.lifetime.selfSpanID

/-! ### Trace2 events (the parsed form consumed by `evt_apply.go`)

Only the event kinds some claim touches are modelled; `cmd_path` and `printf`
are included because their handlers are (observably) no-ops.  Timer/counter
events are omitted along with their tables. -/

inductive TrEventData where
  | version (mf_exe mf_evt : String)
  | start (mf_argv : List GoVal)
  | atexit (mf_code : Int)
  | signal (mf_signo : Int)
  | error (mf_msg mf_fmt : String)
  | printf (mf_msg : String)
  | cmd_path (mf_path : String)
  | cmd_ancestry (mf_ancestry : List GoVal)
  | cmd_name (mf_name mf_hierarchy : String)
  | cmd_mode (mf_name : String)
  | alias_ (mf_alias : String) (mf_argv : List GoVal)
  | child_start (mf_child_id : Int) (mf_child_class : String) (mf_use_shell : Bool)
      (mf_argv : List GoVal) (pmf_hook_name : Option String) (pmf_cd : Option String)
  | child_exit (mf_child_id mf_pid mf_code : Int)
  | child_ready (mf_child_id mf_pid : Int) (mf_ready : String)
  | thread_start
  | thread_exit
  | exec (mf_exec_id : Int) (pmf_exe : Option String) (mf_argv : List GoVal)
  | exec_result (mf_exec_id mf_code : Int)
  | def_param (mf_param : String) (pmf_scope : Option String) (mf_value : String)
  | def_repo (mf_worktree : String)
  | region_enter (mf_nesting : Int) (pmf_category pmf_label pmf_msg : Option String)
  | region_leave (mf_nesting : Int) (pmf_category pmf_label pmf_msg : Option String)
  | data (mf_nesting : Int) (mf_category mf_key : String) (mf_generic_value : GoVal)
deriving DecidableEq

structure TrEvent where
  mf_sid : String
  mf_thread : String
  mf_time : Int
  pmf_repo : Option Int
  payload : TrEventData
deriving DecidableEq

/-- Result of one apply function.  `rejectClient` is the `*RejectClientError`
return (the dataset is carried unchanged); `panicked` marks a Go runtime
panic (out-of-range index, failed type assertion, nil dereference). -/
inductive ApplyOutcome where
  | ok (tr2 : Trace2Dataset)
  | rejectClient (tr2 : Trace2Dataset)
  | panicked

/-! ### Event handlers (`evt_apply.go`) -/

def apply__version (tr2 : Trace2Dataset) (evt : TrEvent) (mf_exe mf_evt : String) :
    ApplyOutcome :=
  let ids := extractIDsfromSID evt.mf_sid
  let main := tr2.process.mainThread
  let main' :=
    { main with lifetime :=
      { main.lifetime with
          displayName := evt.mf_thread
          startTime := evt.mf_time
          selfSpanID := ids.spid
          parentSpanID := ids.spidParent } }
  .ok { tr2 with
          trace2SID := evt.mf_sid
          otelTraceID := ids.tid
          process := { tr2.process with
                        exeVersion := mf_exe
                        evtVersion := mf_evt
                        mainThread := main' } }

def apply__start (tr2 : Trace2Dataset) (mf_argv : List GoVal) : ApplyOutcome :=
  .ok { tr2 with process := { tr2.process with cmdArgv := mf_argv } }

def apply__atexit (tr2 : Trace2Dataset) (evt : TrEvent) (mf_code : Int) : ApplyOutcome :=
  let main := tr2.process.mainThread
  let main' := { main with lifetime := { main.lifetime with endTime := evt.mf_time } }
  .ok { tr2 with process := { tr2.process with mainThread := main', exeExitCode := mf_code } }

def apply__signal (tr2 : Trace2Dataset) (evt : TrEvent) (mf_signo : Int) : ApplyOutcome :=
  let main := tr2.process.mainThread
  let main' := { main with lifetime := { main.lifetime with endTime := evt.mf_time } }
  let p' := { tr2.process with mainThread := main', exeExitCode := 128 + mf_signo }
  .ok { tr2 with process := p' }

/-- `apply__error` (the summary-accumulator hook is omitted with the
accumulator). -/
def apply__error (tr2 : Trace2Dataset) (mf_msg mf_fmt : String) : ApplyOutcome :=
  if tr2.process.exeErrorFmt.length = 0 then
    .ok { tr2 with process := { tr2.process with exeErrorFmt := mf_fmt, exeErrorMsg := mf_msg } }
  else .ok tr2

def apply__printf (tr2 : Trace2Dataset) : ApplyOutcome := .ok tr2

def apply__cmd_path (tr2 : Trace2Dataset) : ApplyOutcome := .ok tr2

def apply__cmd_ancestry (tr2 : Trace2Dataset) (mf_ancestry : List GoVal) : ApplyOutcome :=
  .ok { tr2 with process := { tr2.process with cmdAncestry := mf_ancestry } }

/-- `IsFSMonitorDaemon` (`rejectclient.go`): non-nil error exactly on the
`fsmonitor--daemon` verb. -/
def isFSMonitorDaemon (verb : String) : Bool := verb == "fsmonitor--daemon"

def apply__cmd_name (tr2 : Trace2Dataset) (mf_name mf_hierarchy : String) : ApplyOutcome :=
  if isFSMonitorDaemon mf_name then .rejectClient tr2
  else
    let p' := { tr2.process with cmdVerb := mf_name, cmdHierarchy := mf_hierarchy }
    .ok { tr2 with process := p' }

def apply__cmd_mode (tr2 : Trace2Dataset) (mf_name : String) : ApplyOutcome :=
  .ok { tr2 with process := { tr2.process with cmdMode := mf_name } }

def apply__alias (tr2 : Trace2Dataset) (mf_alias : String) (mf_argv : List GoVal) :
    ApplyOutcome :=
  let p' := { tr2.process with cmdAliasKey := mf_alias, cmdAliasValue := mf_argv }
  .ok { tr2 with process := p' }

/-- Go `strings.HasSuffix`. -/
def strHasSuffix (s suf : String) : Bool := suf.data.isSuffixOf s.data

/-- `TrEventChildStart.makeChildDisplayName`: `none` models the Go panics
(`argv[i]` out of range, `.(string)` on a non-string, `*pmf_hook_name` nil
dereference). -/
def makeChildDisplayName (mf_child_class : String) (mf_argv : List GoVal)
    (pmf_hook_name : Option String) : Option String :=
  if mf_child_class = "editor" ∨ mf_child_class = "pager" then
    some ("child(class:" ++ mf_child_class ++ ")")
  else if mf_child_class = "hook" then
    (pmf_hook_name).map (fun h => "child(hook:" ++ h ++ ")")
  else if mf_child_class = "git_alias" then some "child(alias:git)"
  else if mf_child_class = "shell_alias" then some "child(alias:shell)"
  else if mf_child_class = "dashed" then
    ((mf_argv.get? 0).bind goValAsString).map (fun a => "child(dashed:" ++ a ++ ")")
  else if mf_child_class = "cred" then
    if mf_argv.length > 1 then
      ((mf_argv.get? 1).bind goValAsString).map (fun a => "child(cred:" ++ a ++ ")")
    else
      ((mf_argv.get? 0).bind goValAsString).map (fun a0 =>
        if strHasSuffix a0 "get" then "child(cred:get)"
        else if strHasSuffix a0 "store" then "child(cred:store)"
        else if strHasSuffix a0 "erase" then "child(cred:erase)"
        else "child(cred:unknown)")
  else if mf_child_class = "?" then some "child(class:unknown)"
  else some ("child(class:" ++ mf_child_class ++ ")")

def apply__child_start (tr2 : Trace2Dataset) (evt : TrEvent) (mf_child_id : Int)
    (mf_child_class : String) (mf_argv : List GoVal)
    (pmf_hook_name : Option String) : ApplyOutcome :=
  match alGetInt tr2.children mf_child_id with
  | some _ => .ok tr2
  | none =>
    match makeChildDisplayName mf_child_class mf_argv pmf_hook_name with
    | none => .panicked
    | some dn =>
      let idrng := newSpanID tr2.rngState
      let child : TrChild :=
        { lifetime :=
            { selfSpanID := idrng.1
              parentSpanID := tr2.process.mainThread.lifetime.selfSpanID
              startTime := evt.mf_time
              endTime := 0
              displayName := dn }
          argv := mf_argv, pid := -1, exitcode := -1, readystate := ""
          class_ := mf_child_class
          hookname := if mf_child_class = "hook" then pmf_hook_name.getD "??" else "" }
      .ok { tr2 with
              rngState := idrng.2
              children := tr2.children ++ [(mf_child_id, child)] }

def apply__child_exit (tr2 : Trace2Dataset) (evt : TrEvent)
    (mf_child_id mf_pid mf_code : Int) : ApplyOutcome :=
  match alGetInt tr2.children mf_child_id with
  | none => .ok tr2
  | some _ =>
    let upd := fun (c : TrChild) =>
      { c with
          lifetime := { c.lifetime with endTime := evt.mf_time }
          pid := mf_pid
          exitcode := mf_code }
    .ok { tr2 with children := alModifyInt tr2.children mf_child_id upd }

def apply__child_ready (tr2 : Trace2Dataset) (evt : TrEvent)
    (mf_child_id mf_pid : Int) (mf_ready : String) : ApplyOutcome :=
  match alGetInt tr2.children mf_child_id with
  | none => .ok tr2
  | some _ =>
    let upd := fun (c : TrChild) =>
      { c with
          lifetime := { c.lifetime with endTime := evt.mf_time }
          pid := mf_pid
          exitcode := -1
          readystate := mf_ready }
    .ok { tr2 with children := alModifyInt tr2.children mf_child_id upd }

def apply__thread_start (tr2 : Trace2Dataset) (evt : TrEvent) : ApplyOutcome :=
  match alGet tr2.threads evt.mf_thread with
  | some _ => .ok tr2
  | none =>
    let idrng := newSpanID tr2.rngState
    let th : TrThread :=
      { lifetime :=
          { selfSpanID := idrng.1
            parentSpanID := tr2.process.mainThread.lifetime.selfSpanID
            startTime := evt.mf_time
            endTime := 0
            displayName := evt.mf_thread }
        regionStack := [] }
    .ok { tr2 with rngState := idrng.2, threads := tr2.threads ++ [(evt.mf_thread, th)] }

/-- `apply__thread_exit`: note the source reads `tr2.threads[...]` directly,
not `lookupThread` (no "main" special case), and mutates that map entry in
place, so the popped thread is written back to the `threads` map even when
its name is literally "main". -/
def apply__thread_exit (tr2 : Trace2Dataset) (evt : TrEvent) : ApplyOutcome :=
  match alGet tr2.threads evt.mf_thread with
  | none => .ok tr2
  | some th =>
    let pr := popAllRegionStackTh th tr2.completedRegions evt.mf_time
    let th' := { pr.1 with lifetime := { pr.1.lifetime with endTime := evt.mf_time } }
    .ok { tr2 with
          completedRegions := pr.2
          threads := tr2.threads.map
            (fun p => if p.1 == evt.mf_thread then (p.1, th') else p) }

/-- Go `filepath.Base` (POSIX rules: empty path gives ".", trailing slashes
are dropped, an all-slash path gives "/"). -/
def filepathBase (s : String) : String :=
  if s.data = [] then "."
  else
    let rev := s.data.reverse.dropWhile (fun c => c == '/')
    if rev = [] then "/"
    else String.mk (rev.takeWhile (fun c => c ≠ '/')).reverse

/-- `TrEventExec.makeExecDisplayName`: basename of `exe`, else of
`argv[0].(string)` (whose type assertion can panic), else `exec(?)`. -/
def makeExecDisplayName (pmf_exe : Option String) (mf_argv : List GoVal) :
    Option String :=
  match pmf_exe with
  | some exe => some ("exec(" ++ filepathBase exe ++ ")")
  | none =>
    if mf_argv.length > 0 then
      ((mf_argv.get? 0).bind goValAsString).map (fun a => "exec(" ++ filepathBase a ++ ")")
    else some "exec(?)"

def apply__exec (tr2 : Trace2Dataset) (evt : TrEvent) (mf_exec_id : Int)
    (pmf_exe : Option String) (mf_argv : List GoVal) : ApplyOutcome :=
  match alGetInt tr2.exec mf_exec_id with
  | some _ => .ok tr2
  | none =>
    match makeExecDisplayName pmf_exe mf_argv with
    | none => .panicked
    | some dn =>
      let idrng := newSpanID tr2.rngState
      let ex : TrExec :=
        { lifetime :=
            { selfSpanID := idrng.1
              parentSpanID := tr2.process.mainThread.lifetime.selfSpanID
              startTime := evt.mf_time
              endTime := 0
              displayName := dn }
          argv := mf_argv
          exe := pmf_exe.getD ""
          exitcode := -1 }
      .ok { tr2 with
              rngState := idrng.2
              exec := tr2.exec ++ [(mf_exec_id, ex)] }

def apply__exec_result (tr2 : Trace2Dataset) (evt : TrEvent)
    (mf_exec_id mf_code : Int) : ApplyOutcome :=
  match alGetInt tr2.exec mf_exec_id with
  | none => .ok tr2
  | some _ =>
    let upd := fun (e : TrExec) =>
      { e with
          lifetime := { e.lifetime with endTime := evt.mf_time }
          exitcode := mf_code }
    .ok { tr2 with exec := alModifyInt tr2.exec mf_exec_id upd }

/-- `get_scope_priority` (`evt_apply.go`): the exact scope → priority table. -/
def get_scope_priority (scope : Option String) : Int :=
  match scope with
  | none => 100
  | some s =>
    if s = "system" then 1
    else if s = "global" then 2
    else if s = "local" then 3
    else if s = "worktree" then 4
    else if s = "command" then 5
    else if s = "submodule" then 6
    else if s = "unknown" then 7
    else 99

def apply__def_param (tr2 : Trace2Dataset) (mf_param : String)
    (pmf_scope : Option String) (mf_value : String) : ApplyOutcome :=
  let key := mf_param
  let priNew := get_scope_priority pmf_scope
  let havePrevVal := (tr2.process.paramSetValues key).isSome
  match tr2.process.paramSetPriorities key with
  | some priCur =>
    if havePrevVal ∧ priNew < priCur then .ok tr2
    else
      let p' := { tr2.process with
                    paramSetValues := mapUpd tr2.process.paramSetValues key mf_value
                    paramSetPriorities := mapUpd tr2.process.paramSetPriorities key priNew }
      .ok { tr2 with process := p' }
  | none =>
    let p' := { tr2.process with
                  paramSetValues := mapUpd tr2.process.paramSetValues key mf_value
                  paramSetPriorities := mapUpd tr2.process.paramSetPriorities key priNew }
    .ok { tr2 with process := p' }

/-- `apply__def_repo`: dereferences the optional common `repo` field (the
parser makes it required for `def_repo`, so `none` models a nil
dereference panic). -/
def apply__def_repo (tr2 : Trace2Dataset) (evt : TrEvent) (mf_worktree : String) :
    ApplyOutcome :=
  match evt.pmf_repo with
  | none => .panicked
  | some repoId =>
    .ok { tr2 with process :=
            { tr2.process with repoSet := mapUpd tr2.process.repoSet repoId mf_worktree } }

/-- `normalizeForRegionDisplayName`: replace `space - . , : ( )` with `_`,
then lowercase. -/
def normalizeForRegionDisplayName (value : String) : String :=
  String.mk (value.data.map (fun c =>
    if c = ' ' ∨ c = '-' ∨ c = '.' ∨ c = ',' ∨ c = ':' ∨ c = '(' ∨ c = ')' then '_'
    else c.toLower))

/-- `TrEventRegionEnter.makeRegionDisplayName`. -/
def makeRegionDisplayName (pmf_category pmf_label : Option String) : String :=
  let c := match pmf_category with
           | some v => normalizeForRegionDisplayName v
           | none => "C"
  let l := match pmf_label with
           | some v => normalizeForRegionDisplayName v
           | none => "L"
  "region(" ++ c ++ "," ++ l ++ ")"

def apply__region_enter (tr2 : Trace2Dataset) (evt : TrEvent) (mf_nesting : Int)
    (pmf_category pmf_label pmf_msg : Option String) : ApplyOutcome :=
  match lookupThread tr2 evt.mf_thread with
  | none => .ok tr2
  | some th =>
    if (th.regionStack.length : Int) ≠ mf_nesting - 1 then .ok tr2
    else
      let idrng := newSpanID tr2.rngState
      let r : TrRegion :=
        { lifetime :=
            { selfSpanID := idrng.1
              parentSpanID := lookupTopParentSpanID th
              startTime := evt.mf_time
              endTime := 0
              displayName := makeRegionDisplayName pmf_category pmf_label }
          nestingLevel := mf_nesting
          message := pmf_msg.getD ""
          category := pmf_category.getD ""
          label := pmf_label.getD ""
          repoId := (evt.pmf_repo).getD 1
          dataValues := fun _ _ => none }
      let th' := { th with regionStack := th.regionStack ++ [r] }
      storeThread { tr2 with rngState := idrng.2 } evt.mf_thread th' |> .ok

/-- `apply__region_leave` (the summary-accumulator hook is omitted with the
accumulator). -/
def apply__region_leave (tr2 : Trace2Dataset) (evt : TrEvent) (mf_nesting : Int) :
    ApplyOutcome :=
  match lookupThread tr2 evt.mf_thread with
  | none => .ok tr2
  | some th =>
    match th.regionStack.getLast? with
    | none => .ok tr2
    | some r =>
      if r.nestingLevel ≠ mf_nesting then .ok tr2
      else
        let r' := setRegionEnd evt.mf_time r
        let th' := { th with regionStack := th.regionStack.dropLast }
        let tr2' := { tr2 with completedRegions := tr2.completedRegions ++ [r'] }
        storeThread tr2' evt.mf_thread th' |> .ok

/-- `TrProcess.setGenericDataValue` / `TrRegion.setGenericDataValue`: in the
function-map model the lazy `make(map[...])` initialization is invisible. -/
def setGenericDataValue (dv : String → String → Option GoVal)
    (category key : String) (value : GoVal) : String → String → Option GoVal :=
  fun c k => if c = category ∧ k = key then some value else dv c k

/-- `apply__data_generic`: the handler for `data` and `data_json`.  Note the
source guards the stack index with `len(regionStack) < nesting-2` and then
reads `regionStack[nesting-2]`; when `len = nesting-2` the read is out of
range, which Go punishes with a panic. -/
def apply__data_generic (tr2 : Trace2Dataset) (evt : TrEvent) (mf_nesting : Int)
    (mf_category mf_key : String) (mf_generic_value : GoVal) : ApplyOutcome :=
  if mf_nesting ≤ 1 then
    let dv := setGenericDataValue tr2.process.dataValues mf_category mf_key mf_generic_value
    .ok { tr2 with process := { tr2.process with dataValues := dv } }
  else
    match lookupThread tr2 evt.mf_thread with
    | none => .ok tr2
    | some th =>
      let rWant := mf_nesting - 2
      if (th.regionStack.length : Int) < rWant then .ok tr2
      else
        match th.regionStack.get? rWant.toNat with
        | none => .panicked
        | some r =>
          if r.nestingLevel ≠ mf_nesting - 1 then .ok tr2
          else
            let dv := setGenericDataValue r.dataValues mf_category mf_key mf_generic_value
            let r' := { r with dataValues := dv }
            let th' := { th with regionStack := th.regionStack.set rWant.toNat r' }
            storeThread tr2 evt.mf_thread th' |> .ok

/-- `evt_apply`: dispatch through the apply map. -/
def evt_apply (tr2 : Trace2Dataset) (evt : TrEvent) : ApplyOutcome :=
  match evt.payload with
  | .version mf_exe mf_evt => apply__version tr2 evt mf_exe mf_evt
  | .start mf_argv => apply__start tr2 mf_argv
  | .atexit mf_code => apply__atexit tr2 evt mf_code
  | .signal mf_signo => apply__signal tr2 evt mf_signo
  | .error mf_msg mf_fmt => apply__error tr2 mf_msg mf_fmt
  | .printf _ => apply__printf tr2
  | .cmd_path _ => apply__cmd_path tr2
  | .cmd_ancestry mf_ancestry => apply__cmd_ancestry tr2 mf_ancestry
  | .cmd_name mf_name mf_hierarchy => apply__cmd_name tr2 mf_name mf_hierarchy
  | .cmd_mode mf_name => apply__cmd_mode tr2 mf_name
  | .alias_ mf_alias mf_argv => apply__alias tr2 mf_alias mf_argv
  | .child_start cid cls _ argv hook _ => apply__child_start tr2 evt cid cls argv hook
  | .child_exit cid pid code => apply__child_exit tr2 evt cid pid code
  | .child_ready cid pid ready => apply__child_ready tr2 evt cid pid ready
  | .thread_start => apply__thread_start tr2 evt
  | .thread_exit => apply__thread_exit tr2 evt
  | .exec eid exe argv => apply__exec tr2 evt eid exe argv
  | .exec_result eid code => apply__exec_result tr2 evt eid code
  | .def_param p sc v => apply__def_param tr2 p sc v
  | .def_repo w => apply__def_repo tr2 evt w
  | .region_enter n c l m => apply__region_enter tr2 evt n c l m
  | .region_leave n _ _ _ => apply__region_leave tr2 evt n
  | .data n c k v => apply__data_generic tr2 evt n c k v

/-! ### Finalization (`trace2dataset.go: prepareDataset`) and export -/

/-- Go `filepath.Ext`: the suffix beginning at the final dot in the final
path element, or empty. -/
def filepathExt (s : String) : String :=
  let rev := s.data.reverse.takeWhile (fun c => c ≠ '/')
  if rev.contains '.' then String.mk ((rev.takeWhile (fun c => c ≠ '.')) ++ ['.']).reverse
  else ""

/-- Go `strings.ToLower` (ASCII; the suffixes compared here are ASCII). -/
def strToLower (s : String) : String := String.mk (s.data.map Char.toLower)

/-- Go `strings.TrimSuffix`. -/
def strTrimSuffix (s suf : String) : String :=
  if suf.data.isSuffixOf s.data then String.mk (s.data.take (s.data.length - suf.data.length))
  else s

/-- `trace2Dataset.setQualifiedExeName`: basename of `argv[0]` with a
case-insensitive `.exe` suffix stripped.  `none` models the
`cmdArgv[0].(string)` type-assertion panic (the caller has checked that
`cmdArgv` is non-empty). -/
def setQualifiedExeName (p : TrProcess) : Option TrProcess :=
  match (p.cmdArgv.get? 0).bind goValAsString with
  | none => none
  | some argv_0 =>
    let exeName := filepathBase argv_0
    let ext := filepathExt exeName
    let exeName :=
      if ext.length > 0 ∧ strToLower ext = ".exe" then strTrimSuffix exeName ext
      else exeName
    some { p with qualifiedNames := { p.qualifiedNames with qualifiedExeBaseName := exeName } }

/-- `trace2Dataset.setQualifiedExeVerbName`.  For the `_run_dashed_`
pseudo-verb, `argv[1].(string)` is substituted when present — `none` again
models the type-assertion panic. -/
def setQualifiedExeVerbName (p : TrProcess) : Option TrProcess :=
  let base := p.qualifiedNames.qualifiedExeBaseName
  if p.cmdVerb.length = 0 then
    some { p with qualifiedNames := { p.qualifiedNames with qualifiedExeVerbName := base } }
  else
    let pre := base ++ ":"
    if p.cmdVerb = "_run_dashed_" then
      if p.cmdArgv.length > 1 then
        match (p.cmdArgv.get? 1).bind goValAsString with
        | none => none
        | some argv_1 =>
          some { p with qualifiedNames :=
                  { p.qualifiedNames with qualifiedExeVerbName := pre ++ argv_1 } }
      else
        some { p with qualifiedNames :=
                { p.qualifiedNames with qualifiedExeVerbName := pre ++ "_run_dashed_" } }
    else
      some { p with qualifiedNames :=
              { p.qualifiedNames with qualifiedExeVerbName := pre ++ p.cmdVerb } }

/-- `trace2Dataset.setQualifiedExeVerbModeName`. -/
def setQualifiedExeVerbModeName (p : TrProcess) : TrProcess :=
  let ev := p.qualifiedNames.qualifiedExeVerbName
  let evm := if p.cmdMode.length = 0 then ev else ev ++ "#" ++ p.cmdMode
  { p with qualifiedNames := { p.qualifiedNames with qualifiedExeVerbModeName := evm } }

/-- Fixup of one open child in `prepareDataset`. -/
def fixupChild (now : Int) (c : TrChild) : TrChild :=
  if isIncomplete c.lifetime then
    { c with lifetime := { c.lifetime with endTime := now }, pid := -1, exitcode := -1 }
  else c

/-- Fixup of the non-main threads in `prepareDataset`: every still-open
thread has its regions popped (closed at `now`) and is closed at `now`. -/
def fixupThreadsAux (now : Int) :
    List (String × TrThread) → List TrRegion → List (String × TrThread) × List TrRegion
  | [], completed => ([], completed)
  | (nm, th) :: rest, completed =>
    if isIncomplete th.lifetime then
      let pr := popAllRegionStackTh th completed now
      let th' := { pr.1 with lifetime := { pr.1.lifetime with endTime := now } }
      let r := fixupThreadsAux now rest pr.2
      ((nm, th') :: r.1, r.2)
    else
      let r := fixupThreadsAux now rest completed
      ((nm, th) :: r.1, r.2)

inductive PrepOutcome where
  | insufficient
  | prepared (tr2 : Trace2Dataset)
  | panicked

/-- The span fixups of `prepareDataset` (steps 2-4): close open children,
pop and close still-open non-main threads, pop the main thread's remaining
regions and close the main thread (exit code -1) if still open.  Note the
source fixes up incomplete children and threads but never visits `tr2.exec`. -/
def fixupSpansAtEOF (now : Int) (tr2 : Trace2Dataset) : Trace2Dataset :=
  let children' := tr2.children.map (fun p => (p.1, fixupChild now p.2))
  let thr := fixupThreadsAux now tr2.threads tr2.completedRegions
  let prMain := popAllRegionStackTh tr2.process.mainThread thr.2 now
  let main' := prMain.1
  let completed' := prMain.2
  let p0 :=
    if isIncomplete main'.lifetime then
      { tr2.process with
          mainThread := { main' with lifetime := { main'.lifetime with endTime := now } }
          exeExitCode := -1 }
    else { tr2.process with mainThread := main' }
  { tr2 with
      process := p0
      children := children'
      threads := thr.1
      completedRegions := completed' }

/-- The qualified-name computation of `prepareDataset` (step 5) plus the
main-thread display-name overwrite: `none` models the `argv[i].(string)`
panics inside `setQualifiedExeName` / `setQualifiedExeVerbName`. -/
def computeQualifiedNames (p : TrProcess) : Option TrProcess :=
  match setQualifiedExeName p with
  | none => none
  | some p1 =>
    match setQualifiedExeVerbName p1 with
    | none => none
    | some p2 =>
      let p3 := setQualifiedExeVerbModeName p2
      let mt := p3.mainThread
      let mt' := { mt with lifetime :=
                    { mt.lifetime with displayName := p3.qualifiedNames.qualifiedExeVerbModeName } }
      some { p3 with mainThread := mt' }

/-- Embedding of `trace2Dataset.prepareDataset` (`trace2dataset.go`).  `now`
is the wall-clock `time.Now()` taken at finalization. -/
def prepareDataset (now : Int) (tr2 : Trace2Dataset) : PrepOutcome :=
  if tr2.process.cmdArgv.length = 0 then .insufficient
  else
    let tr2f := fixupSpansAtEOF now tr2
    match computeQualifiedNames tr2f.process with
    | none => .panicked
    | some p4 => .prepared { tr2f with process := p4 }

/-- Modelled from the spec: the exporter (`ToTraces`, file `trace2otel.go`)
is not among the provided sources.  §4.7 of the spec defines the emitted span
set per detail level: SUMMARY emits the process span only; PROCESS adds child
and exec spans; VERBOSE adds thread and region spans.  Span timing and names
are taken unchanged from the dataset. -/
def toTracesSpans (dl : FSDetailLevel) (tr2 : Trace2Dataset) : List TrSpanEssentials :=
  let procSpan := tr2.process.mainThread.lifetime
  let childSpans := tr2.children.map (fun p => p.2.lifetime)
  let execSpans := tr2.exec.map (fun p => p.2.lifetime)
  let threadSpans := tr2.threads.map (fun p => p.2.lifetime)
  let regionSpans := tr2.completedRegions.map (fun r => r.lifetime)
  match dl with
  | .summary => [procSpan]
  | .process => procSpan :: childSpans ++ execSpans
  | .verbose => procSpan :: childSpans ++ execSpans ++ threadSpans ++ regionSpans
  | _ => []

inductive ExportOutcome where
  | noExport
  | exported (spans : List TrSpanEssentials)
  | panicked

/-- Embedding of `trace2Dataset.exportTraces` (`trace2dataset.go`): return
without exporting unless data was seen, the dataset is sufficient, and the
computed detail level is not `dl:drop`; past the drop check the code reads
`tr2.rcvr_base.RcvrConfig.filterSettings.Keynames` to pass to `ToTraces`,
which is a nil-pointer dereference when no filter settings are configured
(`fs = none`); otherwise hand the span tree to the downstream consumer. -/
def exportTraces (fs : Option FilterSettings) (now : Int) (tr2 : Trace2Dataset) :
    ExportOutcome :=
  if !tr2.sawData then .noExport
  else
    match prepareDataset now tr2 with
    | .insufficient => .noExport
    | .panicked => .panicked
    | .prepared tr2' =>
      let dl := (computeDetailLevel fs tr2'.process.paramSetValues
                  tr2'.process.qualifiedNames).1
      if dl = .drop then .noExport
      else
        match fs with
        | none => .panicked
        | some _ => .exported (toTracesSpans dl tr2')

/-! ### Connection worker (`rcvr_unixsocket.go: worker` + `processRawLine`)

The worker is modelled at event granularity (the line parser is upstream of
every claim below): each received line produces one debug "saw" log entry,
marks `sawData`, and applies the event; a `RejectClientError` is logged at
debug level and stops the read loop with `haveError = true`, so the dataset
is never exported.  On EOF without error the worker calls `exportTraces`. -/

inductive LogLevel where
  | debug
  | error
deriving DecidableEq

inductive WorkerOutcome where
  | crashed
  | finished (logs : List LogLevel) (exported : Option (List TrSpanEssentials))
      (tr2 : Trace2Dataset)

def workerLoop (fs : Option FilterSettings) (now : Int) (tr2 : Trace2Dataset)
    (logs : List LogLevel) : List TrEvent → WorkerOutcome
  | [] =>
    match exportTraces fs now tr2 with
    | .noExport => .finished logs none tr2
    | .exported spans => .finished logs (some spans) tr2
    | .panicked => .crashed
  | evt :: rest =>
    let logs1 := logs ++ [.debug]
    let tr2a := { tr2 with sawData := true }
    match evt_apply tr2a evt with
    | .ok tr2' => workerLoop fs now tr2' logs1 rest
    | .rejectClient tr2' => .finished (logs1 ++ [.debug]) none tr2'
    | .panicked => .crashed

def workerRun (fs : Option FilterSettings) (now : Int) (events : List TrEvent) :
    WorkerOutcome :=
  workerLoop fs now (newTrace2Dataset 0) [] events

/-! ### Claim C3 -/

/-- Spec-side formulation for C3: first hit among the three qualified names,
in order, else the ruleset default. -/
def specCommandDetailName (rsdef : RSDefinition) (qn : QualifiedNames) : String :=
  match [qn.qualifiedExeVerbModeName, qn.qualifiedExeVerbName,
         qn.qualifiedExeBaseName].findSome? rsdef.cmdMap with
  | some n => n
  | none => rsdef.defaults.detailLevelName

theorem claim_C3_command_lookup_order (rsdef : RSDefinition) (qn : QualifiedNames)
    (dbg : String) :
    (if (lookupCommandDetailLevelName rsdef qn dbg).2.1
     then (lookupCommandDetailLevelName rsdef qn dbg).1
     else rsdef.defaults.detailLevelName) = specCommandDetailName rsdef qn := by
  unfold lookupCommandDetailLevelName specCommandDetailName
  cases h1 : rsdef.cmdMap qn.qualifiedExeVerbModeName <;>
    cases h2 : rsdef.cmdMap qn.qualifiedExeVerbName <;>
      cases h3 : rsdef.cmdMap qn.qualifiedExeBaseName <;>
        simp [List.findSome?, h1, h2, h3]

/-! ### Claim C2 -/

/-- Spec-side formulation for C2: the initial name is the first non-empty
winner of ruleset-key param, nickname mapping, global default ruleset,
builtin default. -/
def specInitialName (fs : FilterSettings) (params : String → Option String) : String :=
  let step1 : Option String :=
    if fs.namespaceKeys.rulesetKey.length = 0 then none
    else (params fs.namespaceKeys.rulesetKey).bind
      (fun v => if v.length = 0 then none else some v)
  let step2 : Option String :=
    if fs.namespaceKeys.nicknameKey.length = 0 then none
    else ((params fs.namespaceKeys.nicknameKey).bind
            (fun nn => if nn.length = 0 then none else fs.nicknameMap nn)).bind
      (fun m => if m.length = 0 then none else some m)
  match step1 with
  | some v => v
  | none =>
    match step2 with
    | some v => v
    | none =>
      if fs.defaults.rulesetName.length = 0 then FSDetailLevelDefaultName
      else fs.defaults.rulesetName

theorem lookupByRulesetKey_eq (fs : FilterSettings) (params : String → Option String)
    (d : String) :
    lookupRulesetNameByRulesetKey fs params d =
      match (if fs.namespaceKeys.rulesetKey.length = 0 then none
             else (params fs.namespaceKeys.rulesetKey).bind
               (fun v => if v.length = 0 then none else some v)) with
      | none => ("", false, d)
      | some v => (v, true, debugDescribe d "rskey" v) := by
  unfold lookupRulesetNameByRulesetKey
  by_cases hk : fs.namespaceKeys.rulesetKey.length = 0
  · simp [hk]
  · cases h1 : params fs.namespaceKeys.rulesetKey with
    | none => simp [hk, h1]
    | some v => by_cases hv : v.length = 0 <;> simp [hk, h1, hv]

theorem lookupByNickname_eq (fs : FilterSettings) (params : String → Option String)
    (d : String) :
    lookupRulesetNameByNickname fs params d =
      match (if fs.namespaceKeys.nicknameKey.length = 0 then none
             else (params fs.namespaceKeys.nicknameKey).bind
               (fun nn => if nn.length = 0 then none else some nn)) with
      | none => ("", false, d)
      | some nn =>
        match (fs.nicknameMap nn).bind (fun m => if m.length = 0 then none else some m) with
        | none => ("", false, debugDescribe (debugDescribe d "nickname" nn) nn "UNKNOWN")
        | some m => (m, true, debugDescribe (debugDescribe d "nickname" nn) nn m) := by
  unfold lookupRulesetNameByNickname
  by_cases hk : fs.namespaceKeys.nicknameKey.length = 0
  · simp [hk]
  · cases h1 : params fs.namespaceKeys.nicknameKey with
    | none => simp [hk, h1]
    | some nn =>
      by_cases hv : nn.length = 0
      · simp [hk, h1, hv]
      · cases h2 : fs.nicknameMap nn with
        | none => simp [hk, h1, hv, h2]
        | some m => by_cases hm : m.length = 0 <;> simp [hk, h1, hv, h2, hm]

theorem specInitialName_eq (fs : FilterSettings) (params : String → Option String) :
    specInitialName fs params =
      (if (lookupRulesetName fs params "").2.1 then (lookupRulesetName fs params "").1
       else FSDetailLevelDefaultName) := by
  unfold specInitialName lookupRulesetName lookupDefaultRulesetName
  simp only [lookupByRulesetKey_eq, lookupByNickname_eq]
  cases hs1 : (if fs.namespaceKeys.rulesetKey.length = 0 then none
               else (params fs.namespaceKeys.rulesetKey).bind
                 (fun v => if v.length = 0 then none else some v)) with
  | some v => simp [hs1]
  | none =>
    simp only [hs1]
    by_cases hnk : fs.namespaceKeys.nicknameKey.length = 0
    · by_cases hd : fs.defaults.rulesetName.length = 0 <;> simp [hnk, hd]
    · cases h2 : params fs.namespaceKeys.nicknameKey with
      | none => by_cases hd : fs.defaults.rulesetName.length = 0 <;> simp [hnk, h2, hd]
      | some nn =>
        by_cases hnn : nn.length = 0
        · by_cases hd : fs.defaults.rulesetName.length = 0 <;> simp [hnk, h2, hnn, hd]
        · cases h3 : fs.nicknameMap nn with
          | none =>
            by_cases hd : fs.defaults.rulesetName.length = 0 <;> simp [hnk, h2, hnn, h3, hd]
          | some m =>
            by_cases hm : m.length = 0
            · by_cases hd : fs.defaults.rulesetName.length = 0 <;>
                simp [hnk, h2, hnn, h3, hm, hd]
            · simp [hnk, h2, hnn, h3, hm]

theorem claim_C2_initial_name_and_detail (fs : FilterSettings)
    (params : String → Option String) (qn : QualifiedNames) :
    (specInitialName fs params =
       (if (lookupRulesetName fs params "").2.1 then (lookupRulesetName fs params "").1
        else FSDetailLevelDefaultName))
    ∧ (∀ (dl : FSDetailLevel) (rdefs : String → Option RSDefinition),
        getDetailLevel (specInitialName fs params) = some dl →
        (computeDetailLevel (some { fs with rulesetDefs := rdefs }) params qn).1 = dl)
    ∧ (getDetailLevel (specInitialName fs params) = none →
        fs.rulesetDefs (specInitialName fs params) = none →
        (computeDetailLevel (some fs) params qn).1 = .summary ∧
        ∃ d, (computeDetailLevel (some fs) params qn).2 =
          debugDescribe (debugDescribe d (specInitialName fs params) "INVALID")
            "builtin-default" FSDetailLevelDefaultName) := by
  refine ⟨specInitialName_eq fs params, ?_, ?_⟩
  · intro dl rdefs hdl
    rw [specInitialName_eq] at hdl
    unfold computeDetailLevel
    dsimp only
    have heq : lookupRulesetName { fs with rulesetDefs := rdefs } params "" =
        lookupRulesetName fs params "" := rfl
    rw [heq]
    by_cases hok : (lookupRulesetName fs params "").2.1
    · rw [if_pos hok] at hdl
      simp [hok, hdl]
    · rw [if_neg hok] at hdl
      simp only [Bool.not_eq_true] at hok
      simp only [hok, Bool.not_false, if_true]
      have hds : dl = FSDetailLevel.summary := by
        simp [getDetailLevel, FSDetailLevelDefaultName, FSDetailLevelSummaryName,
          FSDetailLevelDropName] at hdl
        exact hdl.symm
      subst hds
      rfl
  · intro hnone hrd
    rw [specInitialName_eq] at hnone hrd
    by_cases hok : (lookupRulesetName fs params "").2.1
    · rw [if_pos hok] at hnone hrd
      unfold computeDetailLevel
      dsimp only
      simp only [hok, Bool.not_true, Bool.false_eq_true, if_false, hnone, hrd]
      rw [specInitialName_eq, if_pos hok]
      constructor
      · rfl
      · exact ⟨(lookupRulesetName fs params "").2.2, rfl⟩
    · rw [if_neg hok] at hnone
      exfalso
      simp [getDetailLevel, FSDetailLevelDefaultName, FSDetailLevelSummaryName,
        FSDetailLevelDropName] at hnone

/-! ### Claim C4: def_param scope-priority resolution -/

/-- The (value, priority) the dataset currently stores for one key (both maps
must hold the key). -/
def paramPair (ds : Trace2Dataset) (K : String) : Option (String × Int) :=
  (ds.process.paramSetValues K).bind
    (fun v => (ds.process.paramSetPriorities K).map (fun p => (v, p)))

/-- One `def_param` event as (key, scope, value). -/
abbrev DPEvent := String × Option String × String

def defParamStep (ds : Trace2Dataset) (e : DPEvent) : Trace2Dataset :=
  match apply__def_param ds e.1 e.2.1 e.2.2 with
  | .ok ds' => ds'
  | _ => ds

def applyDefParams (evts : List DPEvent) (ds : Trace2Dataset) : Trace2Dataset :=
  evts.foldl defParamStep ds

def toPV (e : DPEvent) : Int × String := (get_scope_priority e.2.1, e.2.2)

/-- The per-key update rule of `apply__def_param` on (priority, value) pairs. -/
def dpStep (s : Option (String × Int)) (e : Int × String) : Option (String × Int) :=
  match s with
  | none => some (e.2, e.1)
  | some (v', p) => if e.1 < p then some (v', p) else some (e.2, e.1)

def dpFold (l : List (Int × String)) : Option (String × Int) := l.foldl dpStep none

/-- Spec-side formulation for C4: the value of the latest event whose priority
is maximal among all observed events (the latest is the first in the reversed
list). -/
def dpSpec (l : List (Int × String)) : Option (String × Int) :=
  (l.reverse.find? (fun e => e.1 == (l.map Prod.fst).foldr max 0)).map
    (fun e => (e.2, e.1))

theorem get_scope_priority_pos (sc : Option String) : 1 ≤ get_scope_priority sc := by
  cases sc with
  | none => simp [get_scope_priority]
  | some s =>
    simp only [get_scope_priority]
    split_ifs <;> norm_num

theorem foldr_max_append_one (l : List Int) (q : Int) :
    (l ++ [q]).foldr max 0 = max (l.foldr max 0) q := by
  induction l with
  | nil => simp [max_comm]
  | cons a l ih => simp [ih, max_assoc]

theorem foldr_max_mem_of_pos (l : List Int) (hpos : ∀ x ∈ l, 1 ≤ x) (hne : l ≠ []) :
    l.foldr max 0 ∈ l := by
  induction l with
  | nil => simp at hne
  | cons a l ih =>
    rw [List.foldr_cons]
    rcases max_choice a (l.foldr max 0) with h | h
    · rw [h]
      exact List.mem_cons_self a l
    · rw [h]
      by_cases hl : l = []
      · subst hl
        have ha : 1 ≤ a := hpos a (by simp)
        simp only [List.foldr_nil] at h
        have : a ≤ 0 := by
          rw [max_eq_right_iff] at h
          exact h
        omega
      · exact List.mem_cons_of_mem a
          (ih (fun x hx => hpos x (List.mem_cons_of_mem _ hx)) hl)

theorem dpSpec_priority_max (l : List (Int × String)) (v : String) (p : Int)
    (h : dpSpec l = some (v, p)) : p = (l.map Prod.fst).foldr max 0 := by
  unfold dpSpec at h
  cases hf : List.find? (fun e => e.1 == (l.map Prod.fst).foldr max 0) l.reverse with
  | none => rw [hf] at h; simp at h
  | some e =>
    rw [hf] at h
    have hbe := List.find?_some hf
    simp only [beq_iff_eq] at hbe
    have h' : (e.2, e.1) = (v, p) := by simpa using h
    have hp : e.1 = p := congrArg Prod.snd h'
    rw [← hp]
    exact hbe

theorem dpFold_eq_dpSpec (l : List (Int × String)) (hpos : ∀ e ∈ l, 1 ≤ e.1) :
    dpFold l = dpSpec l := by
  induction l using List.reverseRecOn with
  | nil => rfl
  | append_singleton l e ih =>
    obtain ⟨q, v⟩ := e
    have hpos' : ∀ e ∈ l, 1 ≤ e.1 := fun e he => hpos e (List.mem_append_left _ he)
    have hq : 1 ≤ q := by
      have := hpos (q, v) (List.mem_append_right _ (by simp))
      simpa using this
    have hfold : dpFold (l ++ [(q, v)]) = dpStep (dpFold l) (q, v) := by
      unfold dpFold
      rw [List.foldl_append]
      rfl
    have hspecApp : dpSpec (l ++ [(q, v)]) =
        (((q, v) :: l.reverse).find?
            (fun e => e.1 == max ((l.map Prod.fst).foldr max 0) q)).map
          (fun e => (e.2, e.1)) := by
      unfold dpSpec
      simp only [List.map_append, List.map_cons, List.map_nil, foldr_max_append_one,
        List.reverse_append, List.reverse_singleton, List.singleton_append]
    rw [hfold, ih hpos', hspecApp]
    cases hspec : dpSpec l with
    | none =>
      have hnil : l = [] := by
        by_contra hne
        unfold dpSpec at hspec
        rw [Option.map_eq_none'] at hspec
        rw [List.find?_eq_none] at hspec
        have hmem := foldr_max_mem_of_pos (l.map Prod.fst)
          (by
            intro x hx
            obtain ⟨e, he, rfl⟩ := List.mem_map.mp hx
            exact hpos' e he)
          (by simpa using hne)
        obtain ⟨e, he, hpe⟩ := List.mem_map.mp hmem
        exact hspec e (by simpa using he) (by simp [hpe])
      subst hnil
      have hmax : max ((List.map Prod.fst ([] : List (Int × String))).foldr max 0) q = q := by
        simp only [List.map_nil, List.foldr_nil]
        omega
      rw [hmax]
      simp [dpStep, List.find?]
    | some vp =>
      obtain ⟨v', p⟩ := vp
      have hpmax := dpSpec_priority_max l v' p hspec
      by_cases hlt : q < p
      · have h1 : dpStep (some (v', p)) (q, v) = some (v', p) := by simp [dpStep, hlt]
        rw [h1]
        have hmax : max ((l.map Prod.fst).foldr max 0) q = (l.map Prod.fst).foldr max 0 :=
          max_eq_left (by rw [← hpmax]; exact le_of_lt hlt)
        rw [hmax]
        rw [List.find?_cons_of_neg]
        · unfold dpSpec at hspec
          exact hspec.symm
        · simp only [beq_iff_eq]
          rw [← hpmax]
          omega
      · have h1 : dpStep (some (v', p)) (q, v) = some (v, q) := by simp [dpStep, hlt]
        rw [h1]
        have hmax : max ((l.map Prod.fst).foldr max 0) q = q :=
          max_eq_right (by rw [← hpmax]; omega)
        rw [hmax]
        rw [List.find?_cons_of_pos]
        · simp
        · simp

theorem paramPair_step_eq (ds : Trace2Dataset) (K : String) (sc : Option String)
    (v : String) :
    paramPair (defParamStep ds (K, sc, v)) K =
      dpStep (paramPair ds K) (get_scope_priority sc, v) := by
  unfold defParamStep apply__def_param paramPair dpStep
  cases hp : ds.process.paramSetPriorities K with
  | none =>
    cases hv : ds.process.paramSetValues K with
    | none => simp [hp, hv, mapUpd]
    | some v0 => simp [hp, hv, mapUpd]
  | some p =>
    cases hv : ds.process.paramSetValues K with
    | none => simp [hp, hv, mapUpd]
    | some v0 =>
      by_cases hlt : get_scope_priority sc < p
      · simp [hp, hv, hlt, mapUpd]
      · simp [hp, hv, hlt, mapUpd]

theorem paramPair_step_ne (ds : Trace2Dataset) (e : DPEvent) (K : String)
    (h : e.1 ≠ K) : paramPair (defParamStep ds e) K = paramPair ds K := by
  obtain ⟨k, sc, v⟩ := e
  simp only [ne_eq] at h
  unfold defParamStep apply__def_param paramPair
  have hK : ¬ (K = k) := fun hh => h (hh.symm)
  cases hp : ds.process.paramSetPriorities k with
  | none => simp [hp, mapUpd, hK]
  | some p =>
    by_cases hv : (ds.process.paramSetValues k).isSome
    · by_cases hlt : get_scope_priority sc < p
      · simp [hp, hv, hlt, mapUpd, hK]
      · simp [hp, hv, hlt, mapUpd, hK]
    · simp [hp, hv, mapUpd, hK]

theorem applyDefParams_pair (evts : List DPEvent) :
    ∀ (ds : Trace2Dataset) (K : String),
      paramPair (applyDefParams evts ds) K =
        ((evts.filter (fun e => e.1 == K)).map toPV).foldl dpStep (paramPair ds K) := by
  induction evts with
  | nil => intro ds K; rfl
  | cons e rest ih =>
    intro ds K
    have hstep : applyDefParams (e :: rest) ds = applyDefParams rest (defParamStep ds e) := rfl
    rw [hstep, ih]
    by_cases h : e.1 = K
    · have : paramPair (defParamStep ds e) K = dpStep (paramPair ds K) (toPV e) := by
        obtain ⟨k, sc, v⟩ := e
        cases h
        exact paramPair_step_eq ds k sc v
      rw [this]
      simp [List.filter_cons, h, toPV]
    · rw [paramPair_step_ne ds e K h]
      simp [List.filter_cons, h]

theorem claim_C4_def_param_latest_max (evts : List DPEvent) (K : String) :
    (paramPair (applyDefParams evts (newTrace2Dataset 0)) K =
       dpSpec ((evts.filter (fun e => e.1 == K)).map toPV))
    ∧ (∀ (ds : Trace2Dataset) (sc : Option String) (v vOld : String) (p : Int),
        paramPair ds K = some (vOld, p) → get_scope_priority sc < p →
        defParamStep ds (K, sc, v) = ds)
    ∧ (∀ (ds : Trace2Dataset) (sc : Option String) (v vOld : String) (p : Int),
        paramPair ds K = some (vOld, p) → get_scope_priority sc = p →
        paramPair (defParamStep ds (K, sc, v)) K = some (v, p)) := by
  refine ⟨?_, ?_, ?_⟩
  · rw [applyDefParams_pair]
    have h0 : paramPair (newTrace2Dataset 0) K = none := rfl
    rw [h0]
    have hfold : ((evts.filter (fun e => e.1 == K)).map toPV).foldl dpStep none =
        dpFold ((evts.filter (fun e => e.1 == K)).map toPV) := rfl
    rw [hfold]
    apply dpFold_eq_dpSpec
    intro e he
    obtain ⟨e', _, rfl⟩ := List.mem_map.mp he
    exact get_scope_priority_pos e'.2.1
  · intro ds sc v vOld p hpair hlt
    unfold paramPair at hpair
    cases hv : ds.process.paramSetValues K with
    | none => rw [hv] at hpair; simp at hpair
    | some v0 =>
      cases hp : ds.process.paramSetPriorities K with
      | none => rw [hv, hp] at hpair; simp at hpair
      | some p0 =>
        rw [hv, hp] at hpair
        simp at hpair
        obtain ⟨hv0, hp0⟩ := hpair
        unfold defParamStep apply__def_param
        simp [hp, hv, hp0, hlt]
  · intro ds sc v vOld p hpair heq
    rw [paramPair_step_eq]
    rw [hpair]
    unfold dpStep
    simp [heq]

def c2fsW : FilterSettings :=
  { namespaceKeys := { nicknameKey := "", rulesetKey := "otel.trace2.ruleset" }
    nicknameMap := fun _ => none
    defaults := { rulesetName := "" }
    rulesetDefs := fun _ => none }

def c2paramsW : String → Option String :=
  fun k => if k = "otel.trace2.ruleset" then some "dl:drop" else none

def c2qnW : QualifiedNames :=
  { qualifiedExeBaseName := "git", qualifiedExeVerbName := "git:status",
    qualifiedExeVerbModeName := "git:status" }

theorem claim_C2_witness :
    getDetailLevel (specInitialName c2fsW c2paramsW) = some FSDetailLevel.drop ∧
    (computeDetailLevel (some { c2fsW with rulesetDefs := fun _ => none })
      c2paramsW c2qnW).1 = FSDetailLevel.drop :=
  ⟨by decide,
   (claim_C2_initial_name_and_detail c2fsW c2paramsW c2qnW).2.1 FSDetailLevel.drop
     (fun _ => none) (by decide)⟩

def c4evtsW : List DPEvent :=
  [("foo", some "local", "A"), ("foo", some "system", "S"), ("foo", some "local", "B")]

theorem claim_C4_witness :
    paramPair (applyDefParams c4evtsW (newTrace2Dataset 0)) "foo" = some ("B", 3) ∧
    defParamStep (applyDefParams c4evtsW (newTrace2Dataset 0)) ("foo", some "system", "X") =
      applyDefParams c4evtsW (newTrace2Dataset 0) :=
  ⟨((claim_C4_def_param_latest_max c4evtsW "foo").1).trans (by decide),
   (claim_C4_def_param_latest_max c4evtsW "foo").2.1
     (applyDefParams c4evtsW (newTrace2Dataset 0)) (some "system") "X" "B" 3
     (((claim_C4_def_param_latest_max c4evtsW "foo").1).trans (by decide)) (by decide)⟩

/-! ### Claim C1: SID → trace/span id synthesis -/

def sidHash (s : String) : List Nat := sha256Bytes (strBytes s)

/-- Bytes 16..24 of a SHA-256 digest — the span-id slice. -/
def spanSlice (h : List Nat) : List Nat := (h.drop 16).take 8

/-- Closed form of `extractIDsfromSID` for a SID whose split is known. -/
theorem extractIDs_split_spec (sid s0 : String) (rest : List String)
    (h : stringsSplit sid '/' = s0 :: rest) :
    extractIDsfromSID sid =
      { tid := (sidHash s0).take 16
        spid := spanSlice (sidHash ((s0 :: rest).getD ((s0 :: rest).length - 1) ""))
        spidParent :=
          if rest = [] then zeroSpanID
          else spanSlice (sidHash ((s0 :: rest).getD ((s0 :: rest).length - 2) "")) } := by
  unfold extractIDsfromSID
  rw [h]
  cases rest with
  | nil => simp [sidHash, spanSlice]
  | cons r rs =>
    have hlen : (s0 :: r :: rs).length = rs.length + 2 := by simp
    simp [sidHash, spanSlice, hlen]

/-- **C1.** For every SID string of the form `s0/s1/.../sn`: the trace id is
the first 16 bytes of SHA-256 of `s0`; a single-component SID gets the zero
parent span id and self span id from bytes 16..24 of SHA-256 of `s0`; a
multi-component SID gets parent/self span ids from bytes 16..24 of SHA-256 of
`s[n-1]` / `s[n]`.  Consequently a child SID (one more component) computes the
same trace id and its parent span id equals its parent process's self span
id, with no shared state. -/
theorem claim_C1_sid_id_synthesis (sid s0 : String) (rest : List String)
    (h : stringsSplit sid '/' = s0 :: rest) :
    (extractIDsfromSID sid).tid = (sha256Bytes (strBytes s0)).take 16
    ∧ (rest = [] →
        (extractIDsfromSID sid).spidParent = zeroSpanID ∧
        (extractIDsfromSID sid).spid = spanSlice (sha256Bytes (strBytes s0)))
    ∧ (rest ≠ [] →
        (extractIDsfromSID sid).spidParent =
          spanSlice (sidHash ((s0 :: rest).getD ((s0 :: rest).length - 2) "")) ∧
        (extractIDsfromSID sid).spid =
          spanSlice (sidHash ((s0 :: rest).getD ((s0 :: rest).length - 1) "")))
    ∧ (∀ (csid c : String),
        stringsSplit csid '/' = (s0 :: rest) ++ [c] →
        (extractIDsfromSID csid).tid = (extractIDsfromSID sid).tid ∧
        (extractIDsfromSID csid).spidParent = (extractIDsfromSID sid).spid) := by
  rw [extractIDs_split_spec sid s0 rest h]
  refine ⟨rfl, ?_, ?_, ?_⟩
  · intro hnil
    subst hnil
    exact ⟨rfl, rfl⟩
  · intro hne
    rw [if_neg hne]
    exact ⟨rfl, rfl⟩
  · intro csid c h'
    have h'' : stringsSplit csid '/' = s0 :: (rest ++ [c]) := by
      rw [h']
      simp
    rw [extractIDs_split_spec csid s0 (rest ++ [c]) h'']
    refine ⟨rfl, ?_⟩
    have hne : rest ++ [c] ≠ [] := by simp
    rw [if_neg hne]
    have hidx : (s0 :: (rest ++ [c])).getD ((s0 :: (rest ++ [c])).length - 2) "" =
        (s0 :: rest).getD ((s0 :: rest).length - 1) "" := by
      have hsplit : s0 :: (rest ++ [c]) = (s0 :: rest) ++ [c] := by simp
      rw [hsplit]
      have hl : ((s0 :: rest) ++ [c]).length - 2 = (s0 :: rest).length - 1 := by simp
      rw [hl]
      exact List.getD_append _ _ _ _ (by simp)
    rw [hidx]

set_option maxRecDepth 8192 in
theorem claim_C1_witness :
    (extractIDsfromSID "a/b").tid = (sha256Bytes (strBytes "a")).take 16 ∧
    (extractIDsfromSID "a/b/c").spidParent = (extractIDsfromSID "a/b").spid :=
  ⟨(claim_C1_sid_id_synthesis "a/b" "a" ["b"] (by decide)).1,
   ((claim_C1_sid_id_synthesis "a/b" "a" ["b"] (by decide)).2.2.2 "a/b/c" "c" (by decide)).2⟩

/-! ### Claim C6: export gating -/

/-- The detail level the filter engine computes for the finalized dataset
(`unset` when finalization does not produce a dataset). -/
def detailLevelAtFinal (fs : Option FilterSettings) (now : Int) (tr2 : Trace2Dataset) :
    FSDetailLevel :=
  match prepareDataset now tr2 with
  | .prepared t => (computeDetailLevel fs t.process.paramSetValues t.process.qualifiedNames).1
  | _ => .unset

/-- All elements of an argv are strings (what a well-formed Trace2 client
sends; the JSON parser does not enforce it). -/
def argvAllStrings (argv : List GoVal) : Prop := ∀ v ∈ argv, ∃ s, v = GoVal.vStr s

def c6dsX : Trace2Dataset :=
  { newTrace2Dataset 0 with
      sawData := true
      process := { (newTrace2Dataset 0).process with cmdArgv := [GoVal.vInt 0] } }

def c6dsW : Trace2Dataset :=
  { newTrace2Dataset 0 with
      sawData := true
      process := { (newTrace2Dataset 0).process with cmdArgv := [GoVal.vStr "git"] } }

/-- **C6 counterexample.**  Two refutations of the claim as stated: (1) a
dataset that saw data and has a non-empty argv whose first element is not a
string (and a non-drop detail level) hands nothing to the consumer because
finalization panics on the `argv[0].(string)` type assertion; (2) with no
filter settings configured (the nil `*FilterSettings` of the default
configuration), a sufficient dataset with all-string argv at a non-drop
detail level also hands nothing: after the drop check `exportTraces`
dereferences `filterSettings.Keynames` and panics instead of exporting. -/
theorem claim_C6_counterexample :
    (c6dsX.sawData = true ∧ c6dsX.process.cmdArgv ≠ [] ∧
     (computeDetailLevel none c6dsX.process.paramSetValues
       c6dsX.process.qualifiedNames).1 ≠ FSDetailLevel.drop ∧
     exportTraces none 100 c6dsX = ExportOutcome.panicked) ∧
    (c6dsW.sawData = true ∧ c6dsW.process.cmdArgv ≠ [] ∧
     argvAllStrings c6dsW.process.cmdArgv ∧
     detailLevelAtFinal none 100 c6dsW ≠ FSDetailLevel.drop ∧
     exportTraces none 100 c6dsW = ExportOutcome.panicked) := by
  refine ⟨⟨rfl, by decide, by decide, rfl⟩, rfl, by decide, ?_, by decide, rfl⟩
  intro v hv
  simp [c6dsW, newTrace2Dataset] at hv
  exact ⟨"git", hv⟩

theorem fixup_process_fields (now : Int) (tr2 : Trace2Dataset) :
    (fixupSpansAtEOF now tr2).process.cmdArgv = tr2.process.cmdArgv ∧
    (fixupSpansAtEOF now tr2).process.cmdVerb = tr2.process.cmdVerb ∧
    (fixupSpansAtEOF now tr2).process.cmdMode = tr2.process.cmdMode := by
  unfold fixupSpansAtEOF
  dsimp only
  split <;> exact ⟨rfl, rfl, rfl⟩

theorem setQualifiedExeName_some (p : TrProcess) (hargv : argvAllStrings p.cmdArgv)
    (hne : p.cmdArgv ≠ []) :
    ∃ q, setQualifiedExeName p = some q ∧ q.cmdArgv = p.cmdArgv ∧
      q.cmdVerb = p.cmdVerb ∧ q.cmdMode = p.cmdMode := by
  have h0 : ∃ s0, p.cmdArgv.get? 0 = some (GoVal.vStr s0) := by
    cases hc : p.cmdArgv with
    | nil => simp [hc] at hne
    | cons a l =>
      obtain ⟨s, hs⟩ := hargv a (by rw [hc]; exact List.mem_cons_self a l)
      exact ⟨s, by simp [hs]⟩
  obtain ⟨s0, hs0⟩ := h0
  unfold setQualifiedExeName
  rw [hs0]
  exact ⟨_, rfl, rfl, rfl, rfl⟩

theorem setQualifiedExeVerbName_some (p : TrProcess) (hargv : argvAllStrings p.cmdArgv) :
    ∃ q, setQualifiedExeVerbName p = some q := by
  unfold setQualifiedExeVerbName
  by_cases hv : p.cmdVerb.length = 0
  · exact ⟨_, by rw [if_pos hv]⟩
  · rw [if_neg hv]
    by_cases hd : p.cmdVerb = "_run_dashed_"
    · rw [if_pos hd]
      by_cases hl : p.cmdArgv.length > 1
      · have h1 : ∃ v, p.cmdArgv.get? 1 = some v := by
          cases hc : p.cmdArgv.get? 1 with
          | none =>
            rw [List.get?_eq_none] at hc
            omega
          | some v => exact ⟨v, rfl⟩
        obtain ⟨v, hv1⟩ := h1
        obtain ⟨s, hs⟩ := hargv v (List.get?_mem hv1)
        rw [if_pos hl, hv1, hs]
        exact ⟨_, rfl⟩
      · rw [if_neg hl]
        exact ⟨_, rfl⟩
    · rw [if_neg hd]
      exact ⟨_, rfl⟩

theorem prepareDataset_prepared_of_argv (now : Int) (tr2 : Trace2Dataset)
    (hargv : argvAllStrings tr2.process.cmdArgv)
    (hne : tr2.process.cmdArgv ≠ []) :
    ∃ t, prepareDataset now tr2 = .prepared t := by
  unfold prepareDataset
  have hlen : ¬ tr2.process.cmdArgv.length = 0 := by
    simpa [List.length_eq_zero] using hne
  rw [if_neg hlen]
  dsimp only
  obtain ⟨hfa, hfv, hfm⟩ := fixup_process_fields now tr2
  have hargv' : argvAllStrings (fixupSpansAtEOF now tr2).process.cmdArgv := by
    rw [hfa]; exact hargv
  have hne' : (fixupSpansAtEOF now tr2).process.cmdArgv ≠ [] := by
    rw [hfa]; exact hne
  obtain ⟨q, hq, hqa, hqv, hqm⟩ :=
    setQualifiedExeName_some (fixupSpansAtEOF now tr2).process hargv' hne'
  have hargvq : argvAllStrings q.cmdArgv := by rw [hqa]; exact hargv'
  obtain ⟨q2, hq2⟩ := setQualifiedExeVerbName_some q hargvq
  unfold computeQualifiedNames
  rw [hq]
  dsimp only
  rw [hq2]
  exact ⟨_, rfl⟩

/-- **C6 amended.**  With filter settings configured (a non-nil
`*FilterSettings`) and for datasets whose argv elements are all strings (as
every real `start` event provides), `exportTraces` hands a span tree to the
consumer iff data was seen, argv is non-empty, and the computed detail level
is not `dl:drop`; in every other such case it hands nothing and does not
panic.  (As literally stated the claim fails twice: a non-string `argv[0]`
panics finalization, and with nil filter settings the `.Keynames`
dereference after the drop check panics instead of exporting — see the
counterexample.) -/
theorem claim_C6_export_iff (fs : FilterSettings) (now : Int)
    (tr2 : Trace2Dataset) (hargv : argvAllStrings tr2.process.cmdArgv) :
    ((∃ spans, exportTraces (some fs) now tr2 = .exported spans) ↔
      (tr2.sawData = true ∧ tr2.process.cmdArgv ≠ [] ∧
       detailLevelAtFinal (some fs) now tr2 ≠ .drop))
    ∧ exportTraces (some fs) now tr2 ≠ .panicked := by
  by_cases hs : tr2.sawData
  · by_cases ha : tr2.process.cmdArgv = []
    · have hins : prepareDataset now tr2 = .insufficient := by
        unfold prepareDataset
        rw [if_pos (by simp [ha])]
      have hexp : exportTraces (some fs) now tr2 = .noExport := by
        unfold exportTraces
        rw [if_neg (by simp [hs]), hins]
      rw [hexp]
      constructor
      · constructor
        · rintro ⟨spans, hsp⟩
          exact absurd hsp (by simp)
        · rintro ⟨_, hne, _⟩
          exact absurd ha hne
      · simp
    · obtain ⟨t, hp⟩ := prepareDataset_prepared_of_argv now tr2 hargv ha
      have hdl : detailLevelAtFinal (some fs) now tr2 =
          (computeDetailLevel (some fs) t.process.paramSetValues
            t.process.qualifiedNames).1 := by
        unfold detailLevelAtFinal
        rw [hp]
      have hexp : exportTraces (some fs) now tr2 =
          (if (computeDetailLevel (some fs) t.process.paramSetValues
                t.process.qualifiedNames).1
              = FSDetailLevel.drop then .noExport
           else .exported (toTracesSpans
             (computeDetailLevel (some fs) t.process.paramSetValues
               t.process.qualifiedNames).1 t)) := by
        unfold exportTraces
        rw [if_neg (by simp [hs]), hp]
      by_cases hd : (computeDetailLevel (some fs) t.process.paramSetValues
          t.process.qualifiedNames).1 = FSDetailLevel.drop
      · rw [hexp, if_pos hd]
        constructor
        · constructor
          · rintro ⟨spans, hsp⟩
            exact absurd hsp (by simp)
          · rintro ⟨_, _, hnd⟩
            rw [hdl] at hnd
            exact absurd hd hnd
        · simp
      · rw [hexp, if_neg hd]
        constructor
        · constructor
          · intro _
            refine ⟨hs, ha, ?_⟩
            rw [hdl]
            exact hd
          · intro _
            exact ⟨_, rfl⟩
        · simp
  · have hexp : exportTraces (some fs) now tr2 = .noExport := by
      unfold exportTraces
      rw [if_pos (by simp [hs])]
    rw [hexp]
    constructor
    · constructor
      · rintro ⟨spans, hsp⟩
        exact absurd hsp (by simp)
      · rintro ⟨hstrue, _⟩
        exact (hs (by rw [hstrue])).elim
    · simp

/-- A minimal configured `FilterSettings`: no key names, no nicknames, no
default ruleset, no ruleset definitions (resolution falls through to the
builtin default `dl:summary`). -/
def c6fsW : FilterSettings :=
  { namespaceKeys := { nicknameKey := "", rulesetKey := "" }
    nicknameMap := fun _ => none
    defaults := { rulesetName := "" }
    rulesetDefs := fun _ => none }

theorem claim_C6_witness :
    ∃ spans, exportTraces (some c6fsW) 100 c6dsW = .exported spans :=
  (claim_C6_export_iff c6fsW 100 c6dsW
    (by intro v hv; simp [c6dsW, newTrace2Dataset] at hv; exact ⟨"git", hv⟩)).1.mpr
    ⟨rfl, by decide, by decide⟩

/-! ### Claim C7: fsmonitor--daemon client rejection -/

def workerExported (fs : Option FilterSettings) (now : Int) (events : List TrEvent) :
    Option (List TrSpanEssentials) :=
  match workerRun fs now events with
  | .finished _ e _ => e
  | .crashed => none

def workerLogs (fs : Option FilterSettings) (now : Int) (events : List TrEvent) :
    List LogLevel :=
  match workerRun fs now events with
  | .finished ls _ _ => ls
  | .crashed => []

theorem workerLoop_stops_at_reject (fs : Option FilterSettings) (now : Int)
    (fsm : TrEvent) (hfsm : ∀ tr2, evt_apply tr2 fsm = .rejectClient tr2)
    (ys : List TrEvent) :
    ∀ (zs : List TrEvent) (tr2 : Trace2Dataset) (logs : List LogLevel),
      workerLoop fs now tr2 logs (ys ++ fsm :: zs) =
        workerLoop fs now tr2 logs (ys ++ [fsm]) := by
  induction ys with
  | nil =>
    intro zs tr2 logs
    simp only [List.nil_append, workerLoop, hfsm]
  | cons y ys ih =>
    intro zs tr2 logs
    simp only [List.cons_append, workerLoop]
    cases evt_apply { tr2 with sawData := true } y with
    | ok tr2' => exact ih zs tr2' (logs ++ [LogLevel.debug])
    | rejectClient tr2' => rfl
    | panicked => rfl

theorem workerLoop_reject_no_export (fs : Option FilterSettings) (now : Int)
    (fsm : TrEvent) (hfsm : ∀ tr2, evt_apply tr2 fsm = .rejectClient tr2)
    (ys : List TrEvent) :
    ∀ (tr2 : Trace2Dataset) (logs : List LogLevel),
      (match workerLoop fs now tr2 logs (ys ++ [fsm]) with
       | .finished _ e _ => e
       | .crashed => none) = none := by
  induction ys with
  | nil =>
    intro tr2 logs
    simp only [List.nil_append, workerLoop, hfsm]
  | cons y ys ih =>
    intro tr2 logs
    simp only [List.cons_append, workerLoop]
    cases evt_apply { tr2 with sawData := true } y with
    | ok tr2' => exact ih tr2' (logs ++ [LogLevel.debug])
    | rejectClient tr2' => rfl
    | panicked => rfl

theorem workerLoop_logs_debug (fs : Option FilterSettings) (now : Int)
    (evts : List TrEvent) :
    ∀ (tr2 : Trace2Dataset) (logs : List LogLevel),
      (∀ l ∈ logs, l = LogLevel.debug) →
      ∀ l ∈ (match workerLoop fs now tr2 logs evts with
             | .finished ls _ _ => ls
             | .crashed => []), l = LogLevel.debug := by
  induction evts with
  | nil =>
    intro tr2 logs hlogs
    simp only [workerLoop]
    cases exportTraces fs now tr2 with
    | noExport => exact hlogs
    | exported spans => exact hlogs
    | panicked => simp
  | cons y ys ih =>
    intro tr2 logs hlogs
    have hlogs1 : ∀ l ∈ logs ++ [LogLevel.debug], l = LogLevel.debug := by
      intro l hl
      rcases List.mem_append.mp hl with h | h
      · exact hlogs l h
      · simpa using h
    simp only [workerLoop]
    cases evt_apply { tr2 with sawData := true } y with
    | ok tr2' => exact ih tr2' (logs ++ [LogLevel.debug]) hlogs1
    | rejectClient tr2' =>
      intro l hl
      rcases List.mem_append.mp hl with h | h
      · exact hlogs1 l h
      · simpa using h
    | panicked => simp

/-- **C7.**  A `cmd_name` event carrying `fsmonitor--daemon` is rejected by
`apply__cmd_name` with the dataset unchanged (in particular the verb is not
recorded); the worker stops reading at that event (the remainder of the
stream is irrelevant), never exports the dataset, and every log line of the
run — including the rejection — is at debug level, with no error-level line.
The filter engine is only reached through the export path, which is never
taken. -/
theorem claim_C7_fsmonitor_rejection (fs : Option FilterSettings) (now : Int)
    (sid th : String) (t : Int) (rp : Option Int) (hier : String)
    (ys zs : List TrEvent) :
    (∀ tr2, evt_apply tr2 ⟨sid, th, t, rp, .cmd_name "fsmonitor--daemon" hier⟩ =
        .rejectClient tr2)
    ∧ workerRun fs now (ys ++ ⟨sid, th, t, rp, .cmd_name "fsmonitor--daemon" hier⟩ :: zs) =
        workerRun fs now (ys ++ [⟨sid, th, t, rp, .cmd_name "fsmonitor--daemon" hier⟩])
    ∧ workerExported fs now (ys ++ ⟨sid, th, t, rp, .cmd_name "fsmonitor--daemon" hier⟩ :: zs) =
        none
    ∧ (∀ l ∈ workerLogs fs now (ys ++ ⟨sid, th, t, rp, .cmd_name "fsmonitor--daemon" hier⟩ :: zs),
        l = LogLevel.debug) := by
  have hfsm : ∀ tr2, evt_apply tr2 ⟨sid, th, t, rp, .cmd_name "fsmonitor--daemon" hier⟩ =
      .rejectClient tr2 := by
    intro tr2
    rfl
  refine ⟨hfsm, ?_, ?_, ?_⟩
  · exact workerLoop_stops_at_reject fs now _ hfsm ys zs _ _
  · unfold workerExported workerRun
    rw [workerLoop_stops_at_reject fs now _ hfsm ys zs _ _]
    exact workerLoop_reject_no_export fs now _ hfsm ys _ _
  · unfold workerLogs workerRun
    exact workerLoop_logs_debug fs now _ _ _ (by simp)

/-! ### Claim C10: child_start totality -/

/-- **C10 counterexample.**  A parser-accepted `child_start` event (class
`dashed`, empty argv) on which `apply__child_start` panics: the display-name
computation reads `argv[0].(string)` with no bound or type check. -/
theorem claim_C10_counterexample :
    evt_apply (newTrace2Dataset 0)
      ⟨"s", "main", 1, none, .child_start 1 "dashed" false [] none none⟩ =
      ApplyOutcome.panicked := rfl

/-- The argv/hook shapes under which the child display-name computation is
safe: `hook_name` present for hooks (which the parser guarantees), and the
argv entries read by the `dashed` and `cred` cases present and strings
(which the parser does **not** guarantee). -/
def childStartSafeArgs (cls : String) (argv : List GoVal) (hook : Option String) : Prop :=
  (cls = "hook" → hook.isSome) ∧
  (cls = "dashed" → ∃ s, argv.get? 0 = some (GoVal.vStr s)) ∧
  (cls = "cred" →
    if argv.length > 1 then ∃ s, argv.get? 1 = some (GoVal.vStr s)
    else ∃ s, argv.get? 0 = some (GoVal.vStr s))

theorem makeChildDisplayName_some (cls : String) (argv : List GoVal)
    (hook : Option String) (hsafe : childStartSafeArgs cls argv hook) :
    ∃ dn, makeChildDisplayName cls argv hook = some dn := by
  obtain ⟨hhook, hdash, hcred⟩ := hsafe
  unfold makeChildDisplayName
  by_cases h1 : cls = "editor" ∨ cls = "pager"
  · rw [if_pos h1]
    exact ⟨_, rfl⟩
  · rw [if_neg h1]
    by_cases h2 : cls = "hook"
    · obtain ⟨s, hs⟩ := Option.isSome_iff_exists.mp (hhook h2)
      rw [if_pos h2, hs]
      exact ⟨_, rfl⟩
    · rw [if_neg h2]
      by_cases h3 : cls = "git_alias"
      · rw [if_pos h3]
        exact ⟨_, rfl⟩
      · rw [if_neg h3]
        by_cases h4 : cls = "shell_alias"
        · rw [if_pos h4]
          exact ⟨_, rfl⟩
        · rw [if_neg h4]
          by_cases h5 : cls = "dashed"
          · obtain ⟨s, hs⟩ := hdash h5
            rw [if_pos h5, hs]
            exact ⟨_, rfl⟩
          · rw [if_neg h5]
            by_cases h6 : cls = "cred"
            · rw [if_pos h6]
              have hc := hcred h6
              by_cases hl : argv.length > 1
              · rw [if_pos hl] at hc
                obtain ⟨s, hs⟩ := hc
                rw [if_pos hl, hs]
                exact ⟨_, rfl⟩
              · rw [if_neg hl] at hc
                obtain ⟨s, hs⟩ := hc
                rw [if_neg hl, hs]
                exact ⟨_, rfl⟩
            · rw [if_neg h6]
              by_cases h7 : cls = "?"
              · rw [if_pos h7]
                exact ⟨_, rfl⟩
              · rw [if_neg h7]
                exact ⟨_, rfl⟩

theorem alGetInt_append_one {β : Type} (l : List (Int × β)) (k : Int) (x : Int × β) :
    alGetInt (l ++ [x]) k =
      match alGetInt l k with
      | some v => some v
      | none => alGetInt [x] k := by
  unfold alGetInt
  rw [List.find?_append]
  cases hf : l.find? (fun p => p.1 == k) with
  | none => simp
  | some e => simp

/-- **C10 amended.**  Given the parser guarantees plus string entries at the
argv positions the `dashed`/`cred` display names read, `apply__child_start`
is total (returns `ok`, never panics); the children map gains at most the one
entry for the event's child id, and a duplicate child id leaves the dataset
unchanged.  (As literally stated — covering empty or non-string argv for the
classes `dashed` and `cred` — the claim fails; see the counterexample.) -/
theorem claim_C10_child_start_total (tr2 : Trace2Dataset) (evt : TrEvent)
    (cid : Int) (cls : String) (argv : List GoVal) (hook : Option String)
    (hsafe : childStartSafeArgs cls argv hook) :
    ∃ tr2', apply__child_start tr2 evt cid cls argv hook = .ok tr2' ∧
      (∀ id', id' ≠ cid → alGetInt tr2'.children id' = alGetInt tr2.children id') ∧
      ((alGetInt tr2.children cid).isSome → tr2' = tr2) ∧
      ((alGetInt tr2.children cid).isNone → (alGetInt tr2'.children cid).isSome) := by
  unfold apply__child_start
  cases hdup : alGetInt tr2.children cid with
  | some c =>
    refine ⟨tr2, rfl, fun _ _ => rfl, fun _ => rfl, ?_⟩
    intro hnone
    simp at hnone
  | none =>
    obtain ⟨dn, hdn⟩ := makeChildDisplayName_some cls argv hook hsafe
    rw [hdn]
    refine ⟨_, rfl, ?_, ?_, ?_⟩
    · intro id' hne
      rw [alGetInt_append_one]
      cases hl : alGetInt tr2.children id' with
      | some v => rfl
      | none =>
        have hb : (cid == id') = false := by
          simp [Ne.symm hne]
        simp [alGetInt, List.find?, hb]
    · intro hsome
      simp at hsome
    · intro _
      rw [alGetInt_append_one, hdup]
      simp [alGetInt, List.find?]

def c10evtW : TrEvent :=
  ⟨"s", "main", 1, none,
   .child_start 1 "cred" false [GoVal.vStr "gcm", GoVal.vStr "get"] none none⟩

theorem claim_C10_witness :
    ∃ tr2', apply__child_start (newTrace2Dataset 0) c10evtW 1 "cred"
        [GoVal.vStr "gcm", GoVal.vStr "get"] none = .ok tr2' ∧
      (∀ id', id' ≠ 1 → alGetInt tr2'.children id' =
        alGetInt (newTrace2Dataset 0).children id') ∧
      ((alGetInt (newTrace2Dataset 0).children 1).isSome → tr2' = newTrace2Dataset 0) ∧
      ((alGetInt (newTrace2Dataset 0).children 1).isNone →
        (alGetInt tr2'.children 1).isSome) :=
  claim_C10_child_start_total (newTrace2Dataset 0) c10evtW 1 "cred"
    [GoVal.vStr "gcm", GoVal.vStr "get"] none
    ⟨fun h => absurd h (by decide), fun h => absurd h (by decide),
     fun _ => by
       rw [if_pos (by decide : ([GoVal.vStr "gcm", GoVal.vStr "get"] : List GoVal).length > 1)]
       exact ⟨"get", rfl⟩⟩

/-! ### Claim C8: data / data_json attachment -/

/-- **C8.**  Behaviour of `apply__data_generic` at the boundary the claim
describes.  With nesting 1 the value is stored at process level; with the
thread known but the region stack holding fewer than `nesting-2` entries the
event is ignored; but when the stack holds exactly `nesting-2` entries — in
particular a `data` event with nesting 2 on a thread with an empty stack —
the guard `len(regionStack) < nesting-2` passes and the read
`regionStack[nesting-2]` is out of range: the handler panics instead of
ignoring the event, contradicting the claim (and the handler's own
"ignore the event if we can't find where to attach it" comment). -/
theorem claim_C8_data_generic_oob :
    (∃ tr2', evt_apply (newTrace2Dataset 0)
        ⟨"s", "main", 1, none, .data 1 "cat" "key" (GoVal.vStr "v")⟩ = .ok tr2' ∧
        tr2'.process.dataValues "cat" "key" = some (GoVal.vStr "v")) ∧
    evt_apply (newTrace2Dataset 0)
        ⟨"s", "main", 1, none, .data 3 "cat" "key" (GoVal.vStr "v")⟩ =
      ApplyOutcome.ok (newTrace2Dataset 0) ∧
    evt_apply (newTrace2Dataset 0)
        ⟨"s", "main", 1, none, .data 2 "cat" "key" (GoVal.vStr "v")⟩ =
      ApplyOutcome.panicked := by
  refine ⟨⟨_, rfl, ?_⟩, rfl, rfl⟩
  simp [setGenericDataValue]

/-! ### Claim C5: region stack invariants -/

/-- The parent-chain property of one region stack (bottom of the stack
first): the bottom region's parent is `pid` (the thread's self span id) and
every later region's parent is the self span id of the region below it. -/
def chainFromB (pid : List Nat) : List TrRegion → Bool
  | [] => true
  | r :: rest => (r.lifetime.parentSpanID == pid) && chainFromB r.lifetime.selfSpanID rest

def regionChainOk (th : TrThread) : Bool :=
  chainFromB th.lifetime.selfSpanID th.regionStack

/-- The C5 invariant over the whole dataset: the main thread's stack and
every stack in the thread map are correctly parent-chained. -/
def datasetChainsOk (tr2 : Trace2Dataset) : Bool :=
  regionChainOk tr2.process.mainThread &&
    tr2.threads.all (fun p => regionChainOk p.2)

theorem chainFromB_append (pid : List Nat) (l : List TrRegion) (r : TrRegion) :
    chainFromB pid (l ++ [r]) =
      (chainFromB pid l &&
        (r.lifetime.parentSpanID ==
          (match l.getLast? with
           | none => pid
           | some q => q.lifetime.selfSpanID))) := by
  induction l generalizing pid with
  | nil => simp [chainFromB]
  | cons a l ih =>
    have hm : (match (a :: l).getLast? with
               | none => pid
               | some q => q.lifetime.selfSpanID) =
              (match l.getLast? with
               | none => a.lifetime.selfSpanID
               | some q => q.lifetime.selfSpanID) := by
      cases l with
      | nil => rfl
      | cons b l' =>
        rw [List.getLast?_cons_cons]
        cases h : (b :: l').getLast? with
        | none => simp at h
        | some q => rfl
    simp only [List.cons_append, chainFromB, List.append_eq, ih, Bool.and_assoc, hm]

theorem chainFromB_dropLast (pid : List Nat) (l : List TrRegion)
    (h : chainFromB pid l = true) : chainFromB pid l.dropLast = true := by
  cases hl : l with
  | nil => simp [chainFromB]
  | cons a l' =>
    have hne : l ≠ [] := by simp [hl]
    have hsplit := (List.dropLast_concat_getLast hne).symm
    rw [← hl] at *
    rw [hsplit, chainFromB_append] at h
    simp only [Bool.and_eq_true] at h
    exact h.1

theorem chainFromB_set (pid : List Nat) (l : List TrRegion) (i : Nat) (r' : TrRegion)
    (h : ∀ r, l.get? i = some r → r'.lifetime = r.lifetime) :
    chainFromB pid (l.set i r') = chainFromB pid l := by
  induction l generalizing pid i with
  | nil => rfl
  | cons a l ih =>
    cases i with
    | zero =>
      have hl := h a rfl
      simp only [List.set_cons_zero, chainFromB, hl]
    | succ i =>
      simp only [List.set_cons_succ, chainFromB]
      rw [ih a.lifetime.selfSpanID i (fun r hr => h r hr)]

theorem alGet_mem {β : Type} (l : List (String × β)) (k : String) (v : β)
    (h : alGet l k = some v) : (k, v) ∈ l := by
  unfold alGet at h
  cases hf : l.find? (fun p => p.1 == k) with
  | none => rw [hf] at h; simp at h
  | some p =>
    rw [hf] at h
    have hk := List.find?_some hf
    simp only [beq_iff_eq] at hk
    have hm := List.mem_of_find?_eq_some hf
    have hv : p.2 = v := by simpa using h
    have : p = (k, v) := by
      cases p
      simp_all
    rw [← this]
    exact hm

theorem alGet_map_update {β : Type} (l : List (String × β)) (k : String) (v w : β)
    (h : alGet l k = some v) :
    alGet (l.map (fun p => if p.1 == k then (p.1, w) else p)) k = some w := by
  induction l with
  | nil => simp [alGet] at h
  | cons p l ih =>
    by_cases hp : p.1 = k
    · simp [alGet, List.find?, hp]
    · have hb : (p.1 == k) = false := by simp [hp]
      have h' : alGet l k = some v := by
        unfold alGet at h ⊢
        rw [List.find?_cons_of_neg _ (by simp [hp])] at h
        exact h
      have := ih h'
      unfold alGet at this ⊢
      simp only [List.map_cons, hb, if_false]
      rw [List.find?_cons_of_neg _ (by simp [hp])]
      exact this

theorem datasetChainsOk_storeThread (tr2 : Trace2Dataset) (name : String)
    (th' : TrThread) (hok : datasetChainsOk tr2 = true)
    (hth : regionChainOk th' = true) :
    datasetChainsOk (storeThread tr2 name th') = true := by
  unfold datasetChainsOk at hok
  simp only [Bool.and_eq_true, List.all_eq_true] at hok
  unfold storeThread
  by_cases hn : name = "main"
  · rw [if_pos hn]
    unfold datasetChainsOk
    simp only [Bool.and_eq_true, List.all_eq_true]
    exact ⟨hth, hok.2⟩
  · rw [if_neg hn]
    unfold datasetChainsOk
    simp only [Bool.and_eq_true, List.all_eq_true, List.mem_map]
    refine ⟨hok.1, ?_⟩
    rintro q ⟨p, hp, rfl⟩
    by_cases hc : p.1 == name
    · simp only [hc, if_true]
      exact hth
    · simp only [hc]
      simp only [Bool.false_eq_true, if_false]
      exact hok.2 p hp

theorem threadsAll_mapUpdate (l : List (String × TrThread)) (name : String)
    (th' : TrThread) (hall : l.all (fun p => regionChainOk p.2) = true)
    (hth : regionChainOk th' = true) :
    (l.map (fun p => if p.1 == name then (p.1, th') else p)).all
      (fun p => regionChainOk p.2) = true := by
  simp only [List.all_eq_true, List.mem_map] at hall ⊢
  rintro q ⟨p, hp, rfl⟩
  by_cases hc : p.1 == name
  · simp only [hc, if_true]
    exact hth
  · simp only [hc, Bool.false_eq_true, if_false]
    exact hall p hp

theorem regionChainOk_of_lookup (tr2 : Trace2Dataset) (name : String) (th : TrThread)
    (hok : datasetChainsOk tr2 = true) (hl : lookupThread tr2 name = some th) :
    chainFromB th.lifetime.selfSpanID th.regionStack = true := by
  unfold datasetChainsOk at hok
  simp only [Bool.and_eq_true, List.all_eq_true] at hok
  unfold lookupThread at hl
  by_cases hn : name = "main"
  · rw [if_pos hn] at hl
    have : th = tr2.process.mainThread := by
      injection hl with h
      exact h.symm
    subst this
    exact hok.1
  · rw [if_neg hn] at hl
    exact hok.2 (name, th) (alGet_mem _ _ _ hl)

theorem datasetChainsOk_preserved (tr2 : Trace2Dataset) (evt : TrEvent)
    (tr2' : Trace2Dataset) (hok : datasetChainsOk tr2 = true)
    (hver : ∀ a b, evt.payload = .version a b → tr2.process.mainThread.regionStack = [])
    (happ : evt_apply tr2 evt = .ok tr2') : datasetChainsOk tr2' = true := by
  obtain ⟨sid, thn, t, rp, pl⟩ := evt
  cases pl with
  | version a b =>
    have hstack := hver a b rfl
    simp only [evt_apply, apply__version, ApplyOutcome.ok.injEq] at happ
    subst happ
    simp only [datasetChainsOk, regionChainOk, Bool.and_eq_true] at hok ⊢
    constructor
    · rw [hstack]
      rfl
    · exact hok.2
  | start argv =>
    simp only [evt_apply, apply__start, ApplyOutcome.ok.injEq] at happ
    subst happ
    exact hok
  | atexit code =>
    simp only [evt_apply, apply__atexit, ApplyOutcome.ok.injEq] at happ
    subst happ
    exact hok
  | signal signo =>
    simp only [evt_apply, apply__signal, ApplyOutcome.ok.injEq] at happ
    subst happ
    exact hok
  | error m f =>
    simp only [evt_apply, apply__error] at happ
    by_cases hf : tr2.process.exeErrorFmt.length = 0
    · rw [if_pos hf] at happ
      simp only [ApplyOutcome.ok.injEq] at happ
      subst happ
      exact hok
    · rw [if_neg hf] at happ
      simp only [ApplyOutcome.ok.injEq] at happ
      subst happ
      exact hok
  | printf m =>
    simp only [evt_apply, apply__printf, ApplyOutcome.ok.injEq] at happ
    subst happ
    exact hok
  | cmd_path p =>
    simp only [evt_apply, apply__cmd_path, ApplyOutcome.ok.injEq] at happ
    subst happ
    exact hok
  | cmd_ancestry anc =>
    simp only [evt_apply, apply__cmd_ancestry, ApplyOutcome.ok.injEq] at happ
    subst happ
    exact hok
  | cmd_name n h =>
    simp only [evt_apply, apply__cmd_name] at happ
    by_cases hn : isFSMonitorDaemon n
    · rw [if_pos hn] at happ
      simp at happ
    · rw [if_neg hn] at happ
      simp only [ApplyOutcome.ok.injEq] at happ
      subst happ
      exact hok
  | cmd_mode n =>
    simp only [evt_apply, apply__cmd_mode, ApplyOutcome.ok.injEq] at happ
    subst happ
    exact hok
  | alias_ a v =>
    simp only [evt_apply, apply__alias, ApplyOutcome.ok.injEq] at happ
    subst happ
    exact hok
  | child_start cid cls us argv hook cd =>
    simp only [evt_apply, apply__child_start] at happ
    cases hdup : alGetInt tr2.children cid with
    | some c =>
      rw [hdup] at happ
      simp only [ApplyOutcome.ok.injEq] at happ
      subst happ
      exact hok
    | none =>
      rw [hdup] at happ
      cases hdn : makeChildDisplayName cls argv hook with
      | none => rw [hdn] at happ; simp at happ
      | some dn =>
        rw [hdn] at happ
        simp only [ApplyOutcome.ok.injEq] at happ
        subst happ
        exact hok
  | child_exit cid pid code =>
    simp only [evt_apply, apply__child_exit] at happ
    cases h : alGetInt tr2.children cid with
    | none =>
      rw [h] at happ
      simp only [ApplyOutcome.ok.injEq] at happ
      subst happ
      exact hok
    | some c =>
      rw [h] at happ
      simp only [ApplyOutcome.ok.injEq] at happ
      subst happ
      exact hok
  | child_ready cid pid ready =>
    simp only [evt_apply, apply__child_ready] at happ
    cases h : alGetInt tr2.children cid with
    | none =>
      rw [h] at happ
      simp only [ApplyOutcome.ok.injEq] at happ
      subst happ
      exact hok
    | some c =>
      rw [h] at happ
      simp only [ApplyOutcome.ok.injEq] at happ
      subst happ
      exact hok
  | exec eid exe argv =>
    simp only [evt_apply, apply__exec] at happ
    cases hdup : alGetInt tr2.exec eid with
    | some c =>
      rw [hdup] at happ
      simp only [ApplyOutcome.ok.injEq] at happ
      subst happ
      exact hok
    | none =>
      rw [hdup] at happ
      cases hdn : makeExecDisplayName exe argv with
      | none => rw [hdn] at happ; simp at happ
      | some dn =>
        rw [hdn] at happ
        simp only [ApplyOutcome.ok.injEq] at happ
        subst happ
        exact hok
  | exec_result eid code =>
    simp only [evt_apply, apply__exec_result] at happ
    cases h : alGetInt tr2.exec eid with
    | none =>
      rw [h] at happ
      simp only [ApplyOutcome.ok.injEq] at happ
      subst happ
      exact hok
    | some c =>
      rw [h] at happ
      simp only [ApplyOutcome.ok.injEq] at happ
      subst happ
      exact hok
  | def_param p sc v =>
    simp only [evt_apply, apply__def_param] at happ
    split at happ
    · split at happ <;> (simp only [ApplyOutcome.ok.injEq] at happ; subst happ; exact hok)
    · simp only [ApplyOutcome.ok.injEq] at happ
      subst happ
      exact hok
  | def_repo w =>
    simp only [evt_apply, apply__def_repo] at happ
    cases rp with
    | none => simp at happ
    | some r =>
      simp only [ApplyOutcome.ok.injEq] at happ
      subst happ
      exact hok
  | thread_start =>
    simp only [evt_apply, apply__thread_start] at happ
    cases h : alGet tr2.threads thn with
    | some th =>
      rw [h] at happ
      simp only [ApplyOutcome.ok.injEq] at happ
      subst happ
      exact hok
    | none =>
      rw [h] at happ
      simp only [ApplyOutcome.ok.injEq] at happ
      subst happ
      simp only [datasetChainsOk, Bool.and_eq_true, List.all_eq_true] at hok ⊢
      refine ⟨hok.1, ?_⟩
      intro q hq
      rcases List.mem_append.mp hq with hm | hm
      · exact hok.2 q hm
      · simp only [List.mem_singleton] at hm
        subst hm
        rfl
  | thread_exit =>
    simp only [evt_apply, apply__thread_exit] at happ
    cases h : alGet tr2.threads thn with
    | none =>
      rw [h] at happ
      simp only [ApplyOutcome.ok.injEq] at happ
      subst happ
      exact hok
    | some th =>
      rw [h] at happ
      simp only [ApplyOutcome.ok.injEq] at happ
      subst happ
      simp only [datasetChainsOk, Bool.and_eq_true] at hok ⊢
      exact ⟨hok.1, threadsAll_mapUpdate _ _ _ hok.2 (by rfl)⟩
  | region_enter n c l m =>
    simp only [evt_apply, apply__region_enter] at happ
    cases hl : lookupThread tr2 thn with
    | none =>
      rw [hl] at happ
      simp only [ApplyOutcome.ok.injEq] at happ
      subst happ
      exact hok
    | some th =>
      rw [hl] at happ
      dsimp only at happ
      by_cases hn : (th.regionStack.length : Int) ≠ n - 1
      · rw [if_pos hn] at happ
        simp only [ApplyOutcome.ok.injEq] at happ
        subst happ
        exact hok
      · rw [if_neg hn] at happ
        simp only [ApplyOutcome.ok.injEq] at happ
        subst happ
        apply datasetChainsOk_storeThread
        · exact hok
        · have hchain := regionChainOk_of_lookup tr2 thn th hok hl
          unfold regionChainOk
          rw [chainFromB_append]
          simp only [hchain, Bool.true_and]
          simp [lookupTopParentSpanID]
  | region_leave n c l m =>
    simp only [evt_apply, apply__region_leave] at happ
    cases hl : lookupThread tr2 thn with
    | none =>
      rw [hl] at happ
      simp only [ApplyOutcome.ok.injEq] at happ
      subst happ
      exact hok
    | some th =>
      rw [hl] at happ
      dsimp only at happ
      cases hlast : th.regionStack.getLast? with
      | none =>
        rw [hlast] at happ
        simp only [ApplyOutcome.ok.injEq] at happ
        subst happ
        exact hok
      | some r =>
        rw [hlast] at happ
        dsimp only at happ
        by_cases hn : r.nestingLevel ≠ n
        · rw [if_pos hn] at happ
          simp only [ApplyOutcome.ok.injEq] at happ
          subst happ
          exact hok
        · rw [if_neg hn] at happ
          simp only [ApplyOutcome.ok.injEq] at happ
          subst happ
          apply datasetChainsOk_storeThread
          · exact hok
          · have hchain := regionChainOk_of_lookup tr2 thn th hok hl
            unfold regionChainOk
            exact chainFromB_dropLast _ _ hchain
  | data n c k v =>
    simp only [evt_apply, apply__data_generic] at happ
    by_cases h1 : n ≤ 1
    · rw [if_pos h1] at happ
      simp only [ApplyOutcome.ok.injEq] at happ
      subst happ
      exact hok
    · rw [if_neg h1] at happ
      cases hl : lookupThread tr2 thn with
      | none =>
        rw [hl] at happ
        simp only [ApplyOutcome.ok.injEq] at happ
        subst happ
        exact hok
      | some th =>
        rw [hl] at happ
        dsimp only at happ
        by_cases h2 : (th.regionStack.length : Int) < n - 2
        · rw [if_pos h2] at happ
          simp only [ApplyOutcome.ok.injEq] at happ
          subst happ
          exact hok
        · rw [if_neg h2] at happ
          cases hg : th.regionStack.get? (n - 2).toNat with
          | none =>
            rw [hg] at happ
            simp at happ
          | some r =>
            rw [hg] at happ
            dsimp only at happ
            by_cases h3 : r.nestingLevel ≠ n - 1
            · rw [if_pos h3] at happ
              simp only [ApplyOutcome.ok.injEq] at happ
              subst happ
              exact hok
            · rw [if_neg h3] at happ
              simp only [ApplyOutcome.ok.injEq] at happ
              subst happ
              apply datasetChainsOk_storeThread
              · exact hok
              · have hchain := regionChainOk_of_lookup tr2 thn th hok hl
                unfold regionChainOk
                rw [chainFromB_set]
                · exact hchain
                · intro rr hrr
                  rw [hg] at hrr
                  injection hrr with hrr
                  rw [← hrr]

theorem lookupThread_store_same (tr2 : Trace2Dataset) (name : String) (th : TrThread)
    (hprev : (lookupThread tr2 name).isSome) :
    lookupThread (storeThread tr2 name th) name = some th := by
  unfold lookupThread storeThread
  by_cases hn : name = "main"
  · simp [hn]
  · rw [if_neg hn, if_neg hn]
    dsimp only
    unfold lookupThread at hprev
    rw [if_neg hn] at hprev
    obtain ⟨v, hv⟩ := Option.isSome_iff_exists.mp hprev
    exact alGet_map_update _ _ _ _ hv

/-- **C5 (amended).**  (i) The parent-chain invariant — every open region's
parent span id is the thread's self span id at the bottom of the stack and
the self span id of the region below it otherwise — is preserved by every
successfully applied event, *provided* any `version` event is applied while
the main thread's region stack is empty (a later `version` event re-seats
the main thread's span id and breaks the chain: see the counterexample).
(ii) A `region_enter` whose nesting is not `len(stack)+1` for the resolved
thread (the main thread resolved by the literal name "main") is rejected
with the dataset unchanged.  (iii) An accepted `region_enter` pushes a
region whose stored nesting level equals the stack length immediately after
the push. -/
theorem claim_C5_region_stack_invariants (tr2 : Trace2Dataset) (evt : TrEvent) :
    (∀ tr2', datasetChainsOk tr2 = true →
      (∀ a b, evt.payload = .version a b → tr2.process.mainThread.regionStack = []) →
      evt_apply tr2 evt = .ok tr2' → datasetChainsOk tr2' = true)
    ∧ (∀ n c l m th, evt.payload = .region_enter n c l m →
        lookupThread tr2 evt.mf_thread = some th →
        (th.regionStack.length : Int) ≠ n - 1 →
        evt_apply tr2 evt = .ok tr2)
    ∧ (∀ n c l m th, evt.payload = .region_enter n c l m →
        lookupThread tr2 evt.mf_thread = some th →
        (th.regionStack.length : Int) = n - 1 →
        ∃ tr2' th', evt_apply tr2 evt = .ok tr2' ∧
          lookupThread tr2' evt.mf_thread = some th' ∧
          th'.regionStack.length = th.regionStack.length + 1 ∧
          ∃ r, th'.regionStack.getLast? = some r ∧
            r.nestingLevel = (th'.regionStack.length : Int)) := by
  refine ⟨fun tr2' h1 h2 h3 => datasetChainsOk_preserved tr2 evt tr2' h1 h2 h3, ?_, ?_⟩
  · intro n c l m th hp hl hn
    obtain ⟨sid, thn, t, rp, pl⟩ := evt
    simp only at hp
    subst hp
    simp only at hl ⊢
    simp only [evt_apply, apply__region_enter, hl]
    rw [if_pos hn]
  · intro n c l m th hp hl heq
    obtain ⟨sid, thn, t, rp, pl⟩ := evt
    simp only at hp
    subst hp
    simp only at hl ⊢
    simp only [evt_apply, apply__region_enter, hl]
    rw [if_neg (by rw [heq]; simp)]
    refine ⟨_,
      { th with regionStack := th.regionStack ++
          [{ lifetime :=
               { selfSpanID := (newSpanID tr2.rngState).1
                 parentSpanID := lookupTopParentSpanID th
                 startTime := t
                 endTime := 0
                 displayName := makeRegionDisplayName c l }
             nestingLevel := n
             message := m.getD ""
             category := c.getD ""
             label := l.getD ""
             repoId := rp.getD 1
             dataValues := fun _ _ => none }] }, rfl, ?_, ?_, ?_⟩
    · apply lookupThread_store_same
      have hsame : lookupThread { tr2 with rngState := (newSpanID tr2.rngState).2 } thn =
          lookupThread tr2 thn := rfl
      rw [hsame, hl]
      rfl
    · simp
    · refine ⟨_, List.getLast?_concat _, ?_⟩
      simp only [List.length_append, List.length_cons, List.length_nil]
      push_cast
      omega

def c5ev1 : TrEvent := ⟨"abc", "main", 1, none, .region_enter 1 none none none⟩

def c5ev2 : TrEvent := ⟨"abc", "main", 2, none, .version "2.43.0" "3"⟩

/-- **C5 counterexample.**  A `region_enter` on "main" before the `version`
event pushes a region whose parent span id is the main thread's (still zero)
self span id; the subsequent `version` event re-seats the main thread's self
span id from the SID hash, so at the next quiescent point the open region's
parent span id no longer equals its thread's self span id — the claim as
stated fails. -/
theorem claim_C5_counterexample :
    ∃ d1 d2, evt_apply (newTrace2Dataset 0) c5ev1 = .ok d1 ∧
      evt_apply d1 c5ev2 = .ok d2 ∧ datasetChainsOk d2 = false :=
  ⟨_, _, rfl, rfl, by decide⟩

def c5startEvt : TrEvent := ⟨"abc", "main", 1, none, .start [GoVal.vStr "git"]⟩

theorem claim_C5_witness :
    (∃ tr2' th', evt_apply (newTrace2Dataset 0) c5ev1 = .ok tr2' ∧
      lookupThread tr2' "main" = some th' ∧
      th'.regionStack.length =
        (newTrace2Dataset 0).process.mainThread.regionStack.length + 1 ∧
      ∃ r, th'.regionStack.getLast? = some r ∧
        r.nestingLevel = (th'.regionStack.length : Int)) ∧
    (∃ d, evt_apply (newTrace2Dataset 0) c5startEvt = .ok d ∧ datasetChainsOk d = true) :=
  ⟨(claim_C5_region_stack_invariants (newTrace2Dataset 0) c5ev1).2.2 1 none none none
     (newTrace2Dataset 0).process.mainThread rfl rfl (by decide),
   ⟨_, rfl,
    (claim_C5_region_stack_invariants (newTrace2Dataset 0) c5startEvt).1 _ (by decide)
      (fun a b h => by simp [c5startEvt] at h) rfl⟩⟩

/-! ### Claim C9: span end times -/

def c9fsW : FilterSettings :=
  { namespaceKeys := { nicknameKey := "", rulesetKey := "" }
    nicknameMap := fun _ => none
    defaults := { rulesetName := "dl:verbose" }
    rulesetDefs := fun _ => none }

def c9events : List TrEvent :=
  [⟨"abc", "main", 1, none, .version "2.43.0" "3"⟩,
   ⟨"abc", "main", 2, none, .start [GoVal.vStr "git"]⟩,
   ⟨"abc", "main", 5, none, .exec 0 (some "/usr/bin/ssh") []⟩]

/-- **C9.**  Evaluation of the code at a failing input: a normal stream
(`version`, `start`, then a successful `exec`, so no `exec_result` and the
connection just ends) finalized at a later wall-clock time and exported at
`dl:verbose`.  `prepareDataset` force-closes incomplete children and threads
but never visits `tr2.exec`, so the emitted exec span keeps the zero end
time: the tree contains a span with `endTime < startTime`, contradicting the
claim. -/
theorem claim_C9_incomplete_exec_span :
    ∃ spans, workerExported (some c9fsW) 10 c9events = some spans ∧
      ∃ se ∈ spans, se.endTime < se.startTime := by
  refine ⟨_, rfl, ?_⟩
  decide
